import Mathlib

/-! RateMyLandlord backend: the verification and credential lifecycle of `AuthCtrl.cpp`

A shallow embedding of `backend/src/controllers/AuthCtrl.cpp`.

* `std::string` is a Lean `String`, read as its sequence of characters (`String.data`);
  every string function below is defined on that sequence.
* `size_t` positions are `Nat`; `std::string::npos` is `none`.
* The two process-wide maps `users_` and `pendingVerifications_` are association lists
  (`Map`), with `find`, `assign` (the C++ `m[k] = v`) and `erase`.
* `std::chrono::steady_clock` time points are `Nat` counts of clock ticks (nanoseconds).
* The `size_t` arithmetic of `payloadSource` is arithmetic modulo `2 ^ 64`; pointers are
  modelled by what they point to, `none` or `false` standing for the null pointer.
* The request handlers are functions from the state before the call (and the inputs the
  environment supplies: the clock, the random draw, the outcome of the mail delivery) to
  the state after the call and the HTTP response handed to the callback.
-/

namespace AuthCtrl

/-! ## Strings -/

/-- Position arithmetic of `std::string::find_first_not_of(chars)`: the index of the first
character that is not one of `chars`, or `none` for `npos`. -/
def find_first_not_of (chars : List Char) : List Char → Option Nat
  | [] => none
  | c :: cs =>
    if chars.contains c then (find_first_not_of chars cs).map (· + 1) else some 0

/-- Position arithmetic of `std::string::find_last_not_of(chars)`: the index of the last
character that is not one of `chars`, or `none` for `npos`. -/
def find_last_not_of (chars : List Char) : List Char → Option Nat
  | [] => none
  | c :: cs =>
    match find_last_not_of chars cs with
    | some i => some (i + 1)
    | none => if chars.contains c then none else some 0

/-- The call `s.substr(pos, n)`: at most `n` characters starting at `pos`. The C++ call
throws `std::out_of_range` when `pos > s.size()`; `trim_substr_in_range` and
`parseToken_substr_in_range` show that no call made by this program is in that case. -/
def substr (s : String) (pos n : Nat) : String :=
  ⟨(s.data.drop pos).take n⟩

/-- The call `s.substr(pos)`: everything from `pos` on (same remark as for `substr`). -/
def substrFrom (s : String) (pos : Nat) : String :=
  ⟨s.data.drop pos⟩

/-- The downward search loop of `std::string::rfind`: the largest `i ≤ pos` at which `pat`
occurs in `s`. -/
def rfindFrom (s pat : List Char) : Nat → Option Nat
  | 0 => if pat.isPrefixOf s then some 0 else none
  | i + 1 => if pat.isPrefixOf (s.drop (i + 1)) then some (i + 1) else rfindFrom s pat i

/-- The call `s.rfind(pat, pos)`: the last occurrence of `pat` in `s` that starts at or
before `pos`, `none` for `npos`. -/
def rfind (s pat : String) (pos : Nat) : Option Nat :=
  if pat.data.length ≤ s.data.length then
    rfindFrom s.data pat.data (min (s.data.length - pat.data.length) pos)
  else none

/-- The characters `" \r\n\t"` that `trim` strips. -/
def whitespace : List Char := [' ', '\r', '\n', '\t']

/-- Source `trim` (lines 15-20). When `find_first_not_of` finds a character,
`find_last_not_of` finds one too (`find_last_not_of_isSome`); the `none` branch of the
second match is what the wrapped `npos - start + 1` would select, the rest of the string. -/
def trim (input : String) : String :=
  match find_first_not_of whitespace input.data with
  | none => ""
  | some start =>
    match find_last_not_of whitespace input.data with
    | some stop => substr input start (stop - start + 1)
    | none => substrFrom input start

/-- What `oss << std::setw(6) << std::setfill('0') << value` writes for a non-negative
`int`: the decimal digits of `value`, padded on the left with `'0'` to width 6. -/
def setw6fill0 (value : Nat) : List Char :=
  let digits := Nat.toDigits 10 value
  List.replicate (6 - digits.length) '0' ++ digits

/-- Source `generateVerificationCode` (lines 24-31); `value` is the number that
`dist(rng)` draws from `0 .. 999999`. -/
def generateVerificationCode (value : Nat) : String :=
  ⟨setw6fill0 value⟩

/-- The constant `kVerificationLifetime` (line 35), ten minutes, in the nanosecond ticks of
`std::chrono::steady_clock`. -/
def kVerificationLifetime : Nat := 10 * 60 * 1000000000

/-- Source `AuthCtrl::makeToken` (lines 180-183). -/
def makeToken (email : String) : String :=
  "demo::" ++ email

/-- Source `AuthCtrl::parseToken` (lines 185-191). -/
def parseToken (authHeader : String) : String :=
  if rfind authHeader "Bearer " 0 ≠ some 0 then ""
  else
    let token := substrFrom authHeader 7
    if rfind token "demo::" 0 ≠ some 0 then ""
    else substrFrom token 6

/-! ## The two stores -/

/-- A `std::map`/`std::unordered_map` keyed by `std::string`, as the list of its entries. -/
structure Map (V : Type) where
  entries : List (String × V)
deriving DecidableEq

namespace Map

variable {V : Type}

/-- The empty map. -/
def empty : Map V := ⟨[]⟩

/-- Lookup in an entry list. -/
def findIn (k : String) : List (String × V) → Option V
  | [] => none
  | (k', v) :: t => if k' = k then some v else findIn k t

/-- The call `m.find(k)`: `none` is `m.end()`. -/
def find (m : Map V) (k : String) : Option V :=
  findIn k m.entries

/-- Insert-or-assign in an entry list. -/
def assignIn (k : String) (v : V) : List (String × V) → List (String × V)
  | [] => [(k, v)]
  | (k', v') :: t => if k' = k then (k, v) :: t else (k', v') :: assignIn k v t

/-- The statement `m[k] = v`: replaces the value of an existing key, adds the key
otherwise. -/
def assign (m : Map V) (k : String) (v : V) : Map V :=
  ⟨assignIn k v m.entries⟩

/-- Removal of a key from an entry list. -/
def eraseIn (k : String) : List (String × V) → List (String × V)
  | [] => []
  | (k', v) :: t => if k' = k then eraseIn k t else (k', v) :: eraseIn k t

/-- The call `m.erase(it)` for the iterator `it` that `m.find(k)` returned. -/
def erase (m : Map V) (k : String) : Map V :=
  ⟨eraseIn k m.entries⟩

/-- The keys of the map, in entry order. -/
def keys (m : Map V) : List String :=
  m.entries.map Prod.fst

/-- A C++ map holds each key once. -/
def WF (m : Map V) : Prop :=
  m.keys.Nodup

instance (m : Map V) : Decidable m.WF :=
  inferInstanceAs (Decidable (m.keys.Nodup))

end Map

/-- Modelled from the spec: the record type `User` is declared in `AuthCtrl.h`, which is not
among the sources; section 3 gives the Account fields, and lines 175 and 403 initialise them
in the order email, password, name. -/
structure User where
  email : String
  password : String
  name : String
deriving DecidableEq

/-- Modelled from the spec: the record type `PendingVerification` is declared in
`AuthCtrl.h`, which is not among the sources; section 3 gives its fields, and lines 244-248
initialise them in the order code, expiresAt, verified. -/
structure PendingVerification where
  code : String
  expiresAt : Nat
  verified : Bool
deriving DecidableEq

/-- The mutable state of the controller: the members `users_` and `pendingVerifications_`,
and the content of the file at `dbPath_` (`none` when it cannot be read), a JSON array of
user records. -/
structure State where
  users_ : Map User
  pendingVerifications_ : Map PendingVerification
  dbFile : Option (List User)
deriving DecidableEq

/-! ## Requests and responses -/

/-- A JSON object whose members are strings: member names with the value that `asString()`
returns for them. -/
abbrev JsonObject := List (String × String)

/-- The call `json.isMember(key)`. -/
def isMember (json : JsonObject) (key : String) : Bool :=
  (Map.findIn key json).isSome

/-- The call `json[key].asString()`: a member that is absent reads as the null value, whose
`asString()` is the empty string. -/
def asString (json : JsonObject) (key : String) : String :=
  (Map.findIn key json).getD ""

/-- The result of `req->getJsonObject()`: `none` is the null pointer of a body that is not
JSON. -/
abbrev Request := Option JsonObject

/-- The response passed to the callback: the status code and the members of the JSON body. -/
structure Response where
  status : Nat
  body : JsonObject
deriving DecidableEq

/-- A response built by `newHttpJsonResponse` on an empty object, with status `status` and
the member `error`. -/
def errorResponse (status : Nat) (msg : String) : Response :=
  ⟨status, [("error", msg)]⟩

/-- A response with the default status 200 and the member `message`. -/
def messageResponse (msg : String) : Response :=
  ⟨200, [("message", msg)]⟩

/-- The success payload of `login` and `signup`, with the default status 200. -/
def sessionResponse (token name email : String) : Response :=
  ⟨200, [("token", token), ("name", name), ("email", email)]⟩

/-! ## The handlers -/

/-- Source `AuthCtrl::loadDb` (lines 168-178), reading the content `dbFile` of the file at
`dbPath_`. -/
def loadDb (s : State) : State :=
  match s.dbFile with
  | none => { s with users_ := Map.empty }
  | some root =>
    { s with users_ := root.foldl (fun m user => m.assign user.email user) Map.empty }

/-- Source `AuthCtrl::requestVerification` (lines 193-256). `value` is the random draw of
`generateVerificationCode`, `mailOk` the result of `sendVerificationEmail`, `now` the
reading of the steady clock. -/
def requestVerification (s : State) (req : Request) (value : Nat) (mailOk : Bool)
    (now : Nat) : State × Response :=
  match req with
  | none => (s, errorResponse 400 "email is required")
  | some json =>
    if !isMember json "email" then (s, errorResponse 400 "email is required")
    else
      let email := trim (asString json "email")
      if email = "" then (s, errorResponse 400 "email is required")
      else if (s.users_.find email).isSome then (s, errorResponse 409 "user already exists")
      else
        let code := generateVerificationCode value
        if !mailOk then (s, errorResponse 500 "failed to send verification email")
        else
          let pending : PendingVerification := ⟨code, now + kVerificationLifetime, false⟩
          ({ s with pendingVerifications_ := s.pendingVerifications_.assign email pending },
           messageResponse "verification code sent")

/-- Source `AuthCtrl::verifyCode` (lines 263-319). -/
def verifyCode (s : State) (req : Request) (now : Nat) : State × Response :=
  match req with
  | none => (s, errorResponse 400 "email and code are required")
  | some json =>
    if !isMember json "email" || !isMember json "code" then
      (s, errorResponse 400 "email and code are required")
    else
      let email := trim (asString json "email")
      let code := trim (asString json "code")
      if email = "" ∨ code = "" then (s, errorResponse 400 "email and code are required")
      else
        match s.pendingVerifications_.find email with
        | none => (s, errorResponse 404 "verification not found")
        | some pending =>
          if now > pending.expiresAt then
            ({ s with pendingVerifications_ := s.pendingVerifications_.erase email },
             errorResponse 400 "verification expired")
          else if pending.code ≠ code then
            (s, errorResponse 400 "invalid verification code")
          else
            let confirmed : PendingVerification := { pending with verified := true }
            ({ s with pendingVerifications_ := s.pendingVerifications_.assign email confirmed },
             messageResponse "email verified")

/-- Source `AuthCtrl::login` (lines 328-360). -/
def login (s : State) (req : Request) : State × Response :=
  match req with
  | none => (s, errorResponse 400 "email and password required")
  | some json =>
    if !isMember json "email" || !isMember json "password" then
      (s, errorResponse 400 "email and password required")
    else
      let email := asString json "email"
      let password := asString json "password"
      match s.users_.find email with
      | none => (s, errorResponse 401 "invalid credentials")
      | some user =>
        if user.password ≠ password then (s, errorResponse 401 "invalid credentials")
        else (s, sessionResponse (makeToken email) user.name email)

/-- Source `AuthCtrl::signup` (lines 362-426). -/
def signup (s : State) (req : Request) (now : Nat) : State × Response :=
  match req with
  | none => (s, errorResponse 400 "name, email and password required")
  | some json =>
    if !isMember json "email" || !isMember json "password" || !isMember json "name" then
      (s, errorResponse 400 "name, email and password required")
    else
      let email := trim (asString json "email")
      let password := asString json "password"
      let name := trim (asString json "name")
      if email = "" ∨ name = "" ∨ password = "" then
        (s, errorResponse 400 "name, email and password required")
      else
        match s.pendingVerifications_.find email with
        | none => (s, errorResponse 400 "email must be verified before signup")
        | some pending =>
          if !pending.verified || now > pending.expiresAt then
            (s, errorResponse 400 "email must be verified before signup")
          else if (s.users_.find email).isSome then
            (s, errorResponse 409 "user already exists")
          else
            let users := s.users_.assign email ⟨email, password, name⟩
            ({ users_ := users,
               pendingVerifications_ := s.pendingVerifications_.erase email,
               dbFile := some (users.entries.map Prod.snd) },
             sessionResponse (makeToken email) name email)

/-! ## Sequences of calls -/

/-- One call of a public handler, with the inputs the environment supplies to it. -/
inductive Call where
  | requestVerification (req : Request) (value : Nat) (mailOk : Bool)
  | verifyCode (req : Request)
  | signup (req : Request)
  | login (req : Request)
deriving DecidableEq

/-- One handler call as one atomic step: `now` is the clock reading during the call. -/
def step (s : State) (c : Call) (now : Nat) : State × Response :=
  match c with
  | Call.requestVerification req value mailOk => requestVerification s req value mailOk now
  | Call.verifyCode req => verifyCode s req now
  | Call.signup req => signup s req now
  | Call.login req => login s req

/-- The state after a sequence of calls, each paired with its clock reading. -/
def run (s : State) : List (Call × Nat) → State
  | [] => s
  | (c, now) :: rest => run (step s c now).1 rest

/-- The email a handler that trims works on: the trimmed `email` member of the request
(the empty string when the request has no JSON body or no such member). -/
def emailOf (req : Request) : String :=
  match req with
  | none => ""
  | some json => trim (asString json "email")

/-- The code `verifyCode` compares: the trimmed `code` member of the request. -/
def codeOf (req : Request) : String :=
  match req with
  | none => ""
  | some json => trim (asString json "code")

/-- What the calls made so far say about the record `r` held for the email `e`: a
`requestVerification` for `e` whose mail was delivered answered 200 and installed the code
and the expiry of `r`; from then on the registry held a record for `e` with that code and
that expiry after every call; and when `r.verified` is set, a later `verifyCode` for `e`
supplied that code no later than the expiry and answered 200. -/
def Accounted (s0 : State) (calls : List (Call × Nat)) (e : String)
    (r : PendingVerification) : Prop :=
  ∃ before rq value t0 rest,
    calls = before ++ (Call.requestVerification rq value true, t0) :: rest ∧
    emailOf rq = e ∧
    (requestVerification (run s0 before) rq value true t0).2.status = 200 ∧
    r.code = generateVerificationCode value ∧
    r.expiresAt = t0 + kVerificationLifetime ∧
    (∀ mid, mid <+: rest → ∃ v,
      (run s0 (before ++ (Call.requestVerification rq value true, t0) :: mid)
        ).pendingVerifications_.find e = some ⟨r.code, r.expiresAt, v⟩) ∧
    (r.verified = true → ∃ between vq t1 after,
      rest = between ++ (Call.verifyCode vq, t1) :: after ∧
      emailOf vq = e ∧ codeOf vq = r.code ∧ t1 ≤ r.expiresAt ∧
      (verifyCode (run s0 (before ++ (Call.requestVerification rq value true, t0) :: between))
        vq t1).2.status = 200)

/-! ## The stored accounts, the generated code, the mail payload -/

/-- The user stores that `loadDb` and `signup` build: every key is the email of its
record. -/
def KeysAreEmails (m : Map User) : Prop :=
  ∀ entry ∈ m.entries, entry.1 = entry.2.email

/-- The number a string of decimal digits denotes, the first character being the most
significant digit (`'0'` has code 48). -/
def decimalValue : List Char → Nat
  | [] => 0
  | c :: cs => (c.toNat - 48) * 10 ^ cs.length + decimalValue cs

/-- Source `CurlPayload` (lines 66-69): `data` is `none` for the null pointer; `offset` is a
`size_t`. -/
structure CurlPayload where
  data : Option String
  offset : Nat
deriving DecidableEq

/-- Source `payloadSource` (lines 72-88). `buffer` tells whether the buffer pointer is
non-null and `userdata` is `none` for the null pointer; `size_t` arithmetic is modulo
`2 ^ 64`. The result is the return value, the bytes that `memcpy` writes to the buffer, and
the payload behind `userdata` after the call. -/
def payloadSource (buffer : Bool) (size nitems : Nat) (userdata : Option CurlPayload) :
    Nat × List Char × Option CurlPayload :=
  if !buffer then (0, [], userdata)
  else
    match userdata with
    | none => (0, [], none)
    | some payload =>
      match payload.data with
      | none => (0, [], some payload)
      | some data =>
        let bufferSize := (size * nitems) % 2 ^ 64
        if bufferSize = 0 then (0, [], some payload)
        else
          let remaining := (data.data.length + 2 ^ 64 - payload.offset) % 2 ^ 64
          if remaining = 0 then (0, [], some payload)
          else
            let toCopy := if remaining < bufferSize then remaining else bufferSize
            (toCopy, (data.data.drop payload.offset).take toCopy,
              some { payload with offset := (payload.offset + toCopy) % 2 ^ 64 })

/-- A sequence of reads by the mail library, each with a non-null buffer and its own
`size` and `nitems`: the bytes delivered, in order, and the payload afterwards. -/
def payloadReads : CurlPayload → List (Nat × Nat) → List Char × CurlPayload
  | payload, [] => ([], payload)
  | payload, (size, nitems) :: rest =>
    let r := payloadSource true size nitems (some payload)
    let next := payloadReads (r.2.2.getD payload) rest
    (r.2.1 ++ next.1, next.2)

/-! ## Facts about the string functions -/

theorem rfind_zero (s pat : String) :
    rfind s pat 0 = if pat.data <+: s.data then some 0 else none := by
  unfold rfind
  by_cases hlen : pat.data.length ≤ s.data.length
  · rw [if_pos hlen, Nat.min_zero]
    simp only [rfindFrom, List.isPrefixOf_iff_prefix]
  · have : ¬ pat.data <+: s.data := fun h => hlen h.length_le
    rw [if_neg hlen, if_neg this]

theorem rfind_zero_eq_some (s pat : String) :
    rfind s pat 0 = some 0 ↔ pat.data <+: s.data := by
  rw [rfind_zero]
  by_cases h : pat.data <+: s.data <;> simp [h]

theorem parseToken_eq (h : String) :
    parseToken h = if "Bearer demo::".data <+: h.data then ⟨h.data.drop 13⟩ else "" := by
  unfold parseToken
  simp only [ne_eq, rfind_zero_eq_some, substrFrom]
  by_cases h1 : "Bearer ".data <+: h.data
  · obtain ⟨t, ht⟩ := h1
    have hd : List.drop 7 h.data = t := by rw [← ht]; rfl
    have h13 : List.drop 13 h.data = List.drop 6 t := by rw [← ht]; rfl
    have hiff : "Bearer demo::".data <+: h.data ↔ "demo::".data <+: t := by
      rw [← ht]
      exact List.prefix_append_right_inj "Bearer ".data
    have h1 : "Bearer ".data <+: h.data := ⟨t, ht⟩
    by_cases h2 : "demo::".data <+: t
    · simp [h1, hd, h2, hiff, h13]
    · simp [h1, hd, h2, hiff]
  · have h3 : ¬ "Bearer demo::".data <+: h.data := by
      rintro ⟨t, ht⟩
      exact h1 ⟨"demo::".data ++ t, by rw [← ht]; rfl⟩
    simp [h1, h3]
theorem find_first_not_of_lt (chars : List Char) :
    ∀ (s : List Char) (i : Nat), find_first_not_of chars s = some i → i < s.length := by
  intro s
  induction s with
  | nil => intro i h; simp [find_first_not_of] at h
  | cons c cs ih =>
    intro i h
    unfold find_first_not_of at h
    by_cases hc : chars.contains c = true
    · rw [if_pos hc] at h
      cases hr : find_first_not_of chars cs with
      | none => rw [hr] at h; simp at h
      | some j =>
        rw [hr] at h
        have := ih j hr
        simp at h
        simp
        omega
    · rw [if_neg hc] at h
      simp at h
      simp [← h]

theorem find_last_not_of_lt (chars : List Char) :
    ∀ (s : List Char) (i : Nat), find_last_not_of chars s = some i → i < s.length := by
  intro s
  induction s with
  | nil => intro i h; simp [find_last_not_of] at h
  | cons c cs ih =>
    intro i h
    unfold find_last_not_of at h
    cases hr : find_last_not_of chars cs with
    | none =>
      rw [hr] at h
      by_cases hc : chars.contains c = true
      · rw [if_pos hc] at h; exact absurd h (by simp)
      · rw [if_neg hc] at h
        have : i = 0 := by injection h with h; exact h.symm
        subst this
        simp
    | some j =>
      rw [hr] at h
      have hj := ih j hr
      have : i = j + 1 := by injection h with h; exact h.symm
      subst this
      simp
      omega

theorem find_last_not_of_isSome (chars : List Char) :
    ∀ (s : List Char) (i : Nat), find_first_not_of chars s = some i →
      ∃ j, find_last_not_of chars s = some j ∧ i ≤ j ∧ j < s.length := by
  intro s
  induction s with
  | nil => intro i h; simp [find_first_not_of] at h
  | cons c cs ih =>
    intro i h
    unfold find_first_not_of at h
    by_cases hc : chars.contains c = true
    · rw [if_pos hc] at h
      cases hr : find_first_not_of chars cs with
      | none => rw [hr] at h; simp at h
      | some k =>
        rw [hr] at h
        obtain ⟨j, hj, hkj, hjl⟩ := ih k hr
        simp at h
        refine ⟨j + 1, ?_, by omega, by simp; omega⟩
        simp [find_last_not_of, hj]
    · rw [if_neg hc] at h
      have hi : i = 0 := by injection h with h; exact h.symm
      subst hi
      cases hl : find_last_not_of chars cs with
      | none =>
        refine ⟨0, ?_, le_refl 0, by simp⟩
        unfold find_last_not_of
        rw [hl, if_neg hc]
      | some j =>
        have hj := find_last_not_of_lt chars cs j hl
        refine ⟨j + 1, ?_, by omega, by simp; omega⟩
        unfold find_last_not_of
        rw [hl]

/-- The position that `trim` passes to `substr` is inside the string, so the call does not
throw. -/
theorem trim_substr_in_range (input : String) (start : Nat)
    (h : find_first_not_of whitespace input.data = some start) :
    start ≤ input.data.length :=
  Nat.le_of_lt (find_first_not_of_lt whitespace input.data start h)

/-- The positions that `parseToken` passes to `substr` are inside the strings, so the calls
do not throw. -/
theorem parseToken_substr_in_range (authHeader : String)
    (h : rfind authHeader "Bearer " 0 = some 0) :
    7 ≤ authHeader.data.length ∧
      (rfind (substrFrom authHeader 7) "demo::" 0 = some 0 →
        6 ≤ (substrFrom authHeader 7).data.length) := by
  constructor
  · exact ((rfind_zero_eq_some _ _).1 h).length_le
  · intro h2
    exact ((rfind_zero_eq_some _ _).1 h2).length_le

theorem find_first_not_of_clean (chars : List Char) (c : Char) (cs : List Char)
    (hc : chars.contains c = false) : find_first_not_of chars (c :: cs) = some 0 := by
  unfold find_first_not_of
  rw [hc]
  rfl

theorem find_last_not_of_clean (chars : List Char) :
    ∀ (s : List Char), s ≠ [] → (∀ c ∈ s, chars.contains c = false) →
      find_last_not_of chars s = some (s.length - 1) := by
  intro s
  induction s with
  | nil => intro h; exact absurd rfl h
  | cons c cs ih =>
    intro _ hall
    unfold find_last_not_of
    by_cases hcs : cs = []
    · subst hcs
      have hc := hall c (by simp)
      simp only [find_last_not_of, hc]
      rfl
    · have := ih hcs (fun d hd => hall d (List.mem_cons_of_mem c hd))
      rw [this]
      have hpos : 0 < cs.length := List.length_pos.2 hcs
      simp
      omega

/-- A string without whitespace characters is left as it is by `trim`. -/
theorem trim_of_clean (s : String) (h : ∀ c ∈ s.data, whitespace.contains c = false) :
    trim s = s := by
  unfold trim
  cases hs : s.data with
  | nil =>
    have : s = "" := String.ext hs
    subst this
    rfl
  | cons c cs =>
    have hne : s.data ≠ [] := by rw [hs]; simp
    have hc : whitespace.contains c = false := h c (by rw [hs]; simp)
    rw [find_first_not_of_clean whitespace c cs hc]
    have hl := find_last_not_of_clean whitespace s.data hne h
    rw [hs] at hl
    rw [hl]
    apply String.ext
    simp [substr, hs]

theorem digitChar_clean (n : Nat) : whitespace.contains (Nat.digitChar (n % 10)) = false := by
  have h : n % 10 < 10 := Nat.mod_lt n (by decide)
  interval_cases n % 10 <;> decide

theorem toDigitsCore_clean :
    ∀ (fuel n : Nat) (acc : List Char), (∀ c ∈ acc, whitespace.contains c = false) →
      ∀ c ∈ Nat.toDigitsCore 10 fuel n acc, whitespace.contains c = false := by
  intro fuel
  induction fuel with
  | zero => intro n acc hacc c hc; exact hacc c (by simpa [Nat.toDigitsCore] using hc)
  | succ f ih =>
    intro n acc hacc c hc
    have hacc2 : ∀ d ∈ Nat.digitChar (n % 10) :: acc, whitespace.contains d = false := by
      intro d hd
      rcases List.mem_cons.1 hd with rfl | hd
      · exact digitChar_clean n
      · exact hacc d hd
    unfold Nat.toDigitsCore at hc
    by_cases hz : n / 10 = 0
    · simp only [hz, if_true] at hc
      exact hacc2 c hc
    · simp only [hz, if_false] at hc
      exact ih (n / 10) _ hacc2 c hc

theorem setw6fill0_clean (value : Nat) :
    ∀ c ∈ setw6fill0 value, whitespace.contains c = false := by
  intro c hc
  unfold setw6fill0 at hc
  rcases List.mem_append.1 hc with h | h
  · have := (List.mem_replicate.1 h).2
    subst this
    decide
  · exact toDigitsCore_clean _ _ [] (by simp) c h

theorem setw6fill0_length (value : Nat) : 6 ≤ (setw6fill0 value).length := by
  unfold setw6fill0
  simp
  omega

/-- A generated code has no surrounding whitespace to strip. -/
theorem trim_generateVerificationCode (value : Nat) :
    trim (generateVerificationCode value) = generateVerificationCode value :=
  trim_of_clean _ (setw6fill0_clean value)

/-- A generated code is not the empty string. -/
theorem generateVerificationCode_ne_empty (value : Nat) :
    generateVerificationCode value ≠ "" := by
  intro h
  have h1 : (generateVerificationCode value).data.length = 0 := by rw [h]; rfl
  have h2 := setw6fill0_length value
  simp only [generateVerificationCode] at h1
  omega
/-! ## Facts about the stores -/

namespace Map

variable {V : Type}

theorem findIn_assignIn_self (k : String) (v : V) :
    ∀ l : List (String × V), findIn k (assignIn k v l) = some v := by
  intro l
  induction l with
  | nil => simp [assignIn, findIn]
  | cons p t ih =>
    obtain ⟨k', v'⟩ := p
    by_cases h : k' = k
    · simp [assignIn, findIn, h]
    · simp [assignIn, findIn, h, ih]

theorem findIn_assignIn_ne (k k2 : String) (v : V) (hne : k2 ≠ k) :
    ∀ l : List (String × V), findIn k2 (assignIn k v l) = findIn k2 l := by
  intro l
  induction l with
  | nil => simp [assignIn, findIn, Ne.symm hne]
  | cons p t ih =>
    obtain ⟨k', v'⟩ := p
    by_cases h : k' = k
    · subst h
      simp [assignIn, findIn, Ne.symm hne]
    · by_cases h2 : k' = k2
      · subst h2
        simp [assignIn, findIn, h]
      · simp [assignIn, findIn, h, h2, ih]

theorem findIn_eraseIn_self (k : String) :
    ∀ l : List (String × V), findIn k (eraseIn k l) = none := by
  intro l
  induction l with
  | nil => simp [findIn, eraseIn]
  | cons p t ih =>
    obtain ⟨k', v'⟩ := p
    by_cases h : k' = k
    · simp [eraseIn, h, ih]
    · simp [eraseIn, h, findIn, ih]

theorem findIn_eraseIn_ne (k k2 : String) (hne : k2 ≠ k) :
    ∀ l : List (String × V), findIn k2 (eraseIn k l) = findIn k2 l := by
  intro l
  induction l with
  | nil => simp [findIn, eraseIn]
  | cons p t ih =>
    obtain ⟨k', v'⟩ := p
    by_cases h : k' = k
    · subst h
      simp [eraseIn, findIn, Ne.symm hne, ih]
    · by_cases h2 : k' = k2
      · subst h2
        simp [eraseIn, h, findIn]
      · simp [eraseIn, h, findIn, h2, ih]

@[simp] theorem find_empty (k : String) : (empty : Map V).find k = none := rfl

@[simp] theorem find_assign_self (m : Map V) (k : String) (v : V) :
    (m.assign k v).find k = some v :=
  findIn_assignIn_self k v m.entries

theorem find_assign_ne (m : Map V) (k k2 : String) (v : V) (hne : k2 ≠ k) :
    (m.assign k v).find k2 = m.find k2 :=
  findIn_assignIn_ne k k2 v hne m.entries

@[simp] theorem find_erase_self (m : Map V) (k : String) : (m.erase k).find k = none :=
  findIn_eraseIn_self k m.entries

theorem find_erase_ne (m : Map V) (k k2 : String) (hne : k2 ≠ k) :
    (m.erase k).find k2 = m.find k2 :=
  findIn_eraseIn_ne k k2 hne m.entries

end Map

/-! ## Facts about the tokens -/

theorem parseToken_bearer_demo (s : String) : parseToken ("Bearer demo::" ++ s) = s := by
  rw [parseToken_eq]
  have hp : "Bearer demo::".data <+: ("Bearer demo::" ++ s).data := by
    rw [String.data_append]
    exact List.prefix_append _ _
  rw [if_pos hp]
  apply String.ext
  rw [String.data_append]
  rfl

@[simp] theorem status_errorResponse (n : Nat) (msg : String) :
    (errorResponse n msg).status = n := rfl

@[simp] theorem status_messageResponse (msg : String) : (messageResponse msg).status = 200 := rfl

@[simp] theorem status_sessionResponse (t n e : String) :
    (sessionResponse t n e).status = 200 := rfl

@[simp] theorem name_sessionResponse (t n e : String) :
    asString (sessionResponse t n e).body "name" = n := by
  simp [sessionResponse, asString, Map.findIn]

/-- C4: `parseToken h` is the empty string unless `h` is `"Bearer demo::"` followed by
some `s`, and then it is exactly `s`; in particular it is empty for every `h` that does
not start with `"Bearer "` and for every `h` whose part after `"Bearer "` does not start
with `"demo::"`. -/
theorem parseToken_spec (h : String) :
    (∀ s, h = "Bearer demo::" ++ s → parseToken h = s) ∧
    ((¬ ∃ s, h = "Bearer demo::" ++ s) → parseToken h = "") ∧
    ((¬ ∃ r, h = "Bearer " ++ r) → parseToken h = "") ∧
    (∀ r, h = "Bearer " ++ r → (¬ ∃ s, r = "demo::" ++ s) → parseToken h = "") := by
  have key : (¬ ∃ s, h = "Bearer demo::" ++ s) → parseToken h = "" := by
    intro hn
    rw [parseToken_eq]
    have : ¬ "Bearer demo::".data <+: h.data := by
      rintro ⟨t, ht⟩
      exact hn ⟨⟨t⟩, String.ext (by rw [String.data_append, ← ht])⟩
    rw [if_neg this]
  refine ⟨?_, key, ?_, ?_⟩
  · intro s hs
    rw [hs]
    exact parseToken_bearer_demo s
  · intro hn
    apply key
    rintro ⟨s, hs⟩
    exact hn ⟨"demo::" ++ s, by rw [hs]; apply String.ext; simp [String.data_append]⟩
  · intro r hr hn
    apply key
    rintro ⟨s, hs⟩
    apply hn
    refine ⟨s, String.ext ?_⟩
    have h2 : ("Bearer " ++ r).data = ("Bearer demo::" ++ s).data := by rw [← hr, ← hs]
    rw [String.data_append, String.data_append] at h2
    have h3 : "Bearer demo::".data = "Bearer ".data ++ "demo::".data := rfl
    rw [h3, List.append_assoc] at h2
    rw [String.data_append]
    exact List.append_cancel_left h2

/-- C4 at concrete inputs: a well-formed header, a lower-case scheme, a missing encoding
prefix. -/
theorem parseToken_spec_witness :
    parseToken "Bearer demo::a@x.com" = "a@x.com" ∧
    parseToken "bearer demo::a@x.com" = "" ∧
    parseToken "Bearer a@x.com" = "" :=
  ⟨(parseToken_spec "Bearer demo::a@x.com").1 "a@x.com" (by decide),
   (parseToken_spec "bearer demo::a@x.com").2.2.1 (by
      rintro ⟨r, hr⟩
      have h := congrArg String.data hr
      rw [String.data_append] at h
      have h2 : some 'b' = some 'B' := congrArg List.head? h
      exact absurd h2 (by decide)),
   (parseToken_spec "Bearer a@x.com").2.2.2 "a@x.com" (by decide) (by
      rintro ⟨r, hr⟩
      have h := congrArg String.data hr
      rw [String.data_append] at h
      have h2 : some 'a' = some 'd' := congrArg List.head? h
      exact absurd h2 (by decide))⟩
/-! ## Claim C5: login -/

/-- The state is never changed by `login`. -/
theorem login_state (s : State) (req : Request) : (login s req).1 = s := by
  unfold login
  cases req with
  | none => rfl
  | some json =>
    simp only
    split
    · rfl
    · split
      · rfl
      · split <;> rfl

theorem login_found (s : State) (json : JsonObject) (u : User)
    (hme : isMember json "email" = true) (hmp : isMember json "password" = true)
    (hu : s.users_.find (asString json "email") = some u)
    (hp : u.password = asString json "password") :
    login s (some json) =
      (s, sessionResponse (makeToken (asString json "email")) u.name (asString json "email")) := by
  unfold login
  simp [hme, hmp, hu, hp]

theorem login_rejected (s : State) (json : JsonObject)
    (hme : isMember json "email" = true) (hmp : isMember json "password" = true)
    (hno : ¬ ∃ u, s.users_.find (asString json "email") = some u ∧
      u.password = asString json "password") :
    login s (some json) = (s, errorResponse 401 "invalid credentials") := by
  unfold login
  cases hu : s.users_.find (asString json "email") with
  | none => simp [hme, hmp, hu]
  | some u =>
    have hp : u.password ≠ asString json "password" := fun hp => hno ⟨u, hu, hp⟩
    simp [hme, hmp, hp, hu]

/-- C5: for every user store and every request carrying both an email and a password
member, `login` succeeds, with token `makeToken email`, the stored name and the email,
exactly when the store has an account under the raw email whose password is the raw
password; in every other case the answer is the one 401 "invalid credentials"; and
`login` changes nothing in the state. -/
theorem login_spec (s : State) (json : JsonObject)
    (hme : isMember json "email" = true) (hmp : isMember json "password" = true) :
    (∀ u, s.users_.find (asString json "email") = some u →
        u.password = asString json "password" →
        login s (some json) =
          (s, sessionResponse (makeToken (asString json "email")) u.name
                (asString json "email"))) ∧
    ((¬ ∃ u, s.users_.find (asString json "email") = some u ∧
          u.password = asString json "password") →
        login s (some json) = (s, errorResponse 401 "invalid credentials")) ∧
    ((login s (some json)).2.status = 200 ↔
        ∃ u, s.users_.find (asString json "email") = some u ∧
          u.password = asString json "password") ∧
    (∀ req, (login s req).1 = s) := by
  refine ⟨fun u hu hp => login_found s json u hme hmp hu hp,
    login_rejected s json hme hmp, ?_, login_state s⟩
  constructor
  · intro h
    by_contra hno
    rw [login_rejected s json hme hmp hno] at h
    simp at h
  · rintro ⟨u, hu, hp⟩
    rw [login_found s json u hme hmp hu hp]
    rfl

/-- C5 at concrete inputs: the right password, a wrong password, an unknown email and a
whitespace-padded email against the store holding `a@x.com`. -/
theorem login_spec_witness :
    login ⟨⟨[("a@x.com", ⟨"a@x.com", "p", "A"⟩)]⟩, ⟨[]⟩, none⟩
        (some [("email", "a@x.com"), ("password", "p")]) =
      (⟨⟨[("a@x.com", ⟨"a@x.com", "p", "A"⟩)]⟩, ⟨[]⟩, none⟩,
        sessionResponse "demo::a@x.com" "A" "a@x.com") ∧
    login ⟨⟨[("a@x.com", ⟨"a@x.com", "p", "A"⟩)]⟩, ⟨[]⟩, none⟩
        (some [("email", "a@x.com"), ("password", "p ")]) =
      (⟨⟨[("a@x.com", ⟨"a@x.com", "p", "A"⟩)]⟩, ⟨[]⟩, none⟩,
        errorResponse 401 "invalid credentials") ∧
    login ⟨⟨[("a@x.com", ⟨"a@x.com", "p", "A"⟩)]⟩, ⟨[]⟩, none⟩
        (some [("email", "a@x.com "), ("password", "p")]) =
      (⟨⟨[("a@x.com", ⟨"a@x.com", "p", "A"⟩)]⟩, ⟨[]⟩, none⟩,
        errorResponse 401 "invalid credentials") :=
  ⟨(login_spec ⟨⟨[("a@x.com", ⟨"a@x.com", "p", "A"⟩)]⟩, ⟨[]⟩, none⟩
      [("email", "a@x.com"), ("password", "p")] (by decide) (by decide)).1
      ⟨"a@x.com", "p", "A"⟩ (by decide) (by decide),
   (login_spec ⟨⟨[("a@x.com", ⟨"a@x.com", "p", "A"⟩)]⟩, ⟨[]⟩, none⟩
      [("email", "a@x.com"), ("password", "p ")] (by decide) (by decide)).2.1 (by
        rintro ⟨u, hu, hp⟩
        have hu2 : some (User.mk "a@x.com" "p" "A") = some u := hu
        injection hu2 with hu3
        subst hu3
        exact absurd hp (by decide)),
   (login_spec ⟨⟨[("a@x.com", ⟨"a@x.com", "p", "A"⟩)]⟩, ⟨[]⟩, none⟩
      [("email", "a@x.com "), ("password", "p")] (by decide) (by decide)).2.1 (by
        rintro ⟨u, hu, _⟩
        have hu2 : (none : Option User) = some u := hu
        exact absurd hu2 (by simp))⟩
/-! ## The branches of the handlers -/

theorem requestVerification_sent (s : State) (json : JsonObject) (value now : Nat)
    (hme : isMember json "email" = true) (he : trim (asString json "email") ≠ "")
    (hu : s.users_.find (trim (asString json "email")) = none) :
    requestVerification s (some json) value true now =
      ({ s with pendingVerifications_ :=
            (s.pendingVerifications_.assign (trim (asString json "email"))
              ⟨generateVerificationCode value, now + kVerificationLifetime, false⟩) },
       messageResponse "verification code sent") := by
  unfold requestVerification
  simp [hme, he, hu]

theorem requestVerification_mail_failed (s : State) (json : JsonObject) (value now : Nat)
    (hme : isMember json "email" = true) (he : trim (asString json "email") ≠ "")
    (hu : s.users_.find (trim (asString json "email")) = none) :
    requestVerification s (some json) value false now =
      (s, errorResponse 500 "failed to send verification email") := by
  unfold requestVerification
  simp [hme, he, hu]

/-- Every call of `requestVerification` either fails and leaves the state as it was, or
installs a fresh record for the trimmed email. -/
theorem requestVerification_cases (s : State) (req : Request) (value : Nat) (mailOk : Bool)
    (now : Nat) :
    ((requestVerification s req value mailOk now).1 = s ∧
      (requestVerification s req value mailOk now).2.status ≠ 200) ∨
    (mailOk = true ∧ emailOf req ≠ "" ∧ s.users_.find (emailOf req) = none ∧
      requestVerification s req value mailOk now =
        ({ s with pendingVerifications_ :=
              (s.pendingVerifications_.assign (emailOf req)
                ⟨generateVerificationCode value, now + kVerificationLifetime, false⟩) },
         messageResponse "verification code sent")) := by
  cases req with
  | none => left; exact ⟨rfl, by simp [requestVerification, verifyCode]⟩
  | some json =>
    by_cases hme : isMember json "email" = true
    · by_cases he : trim (asString json "email") = ""
      · left; simp [requestVerification, hme, he]
      · cases hu : s.users_.find (trim (asString json "email")) with
        | some u => left; simp [requestVerification, hme, he, hu]
        | none =>
          cases mailOk with
          | false =>
            left
            rw [requestVerification_mail_failed s json value now hme he hu]
            exact ⟨rfl, by simp⟩
          | true =>
            right
            exact ⟨rfl, he, hu, requestVerification_sent s json value now hme he hu⟩
    · left; simp [requestVerification, hme]

theorem verifyCode_not_found (s : State) (json : JsonObject) (now : Nat)
    (hme : isMember json "email" = true) (hmc : isMember json "code" = true)
    (he : trim (asString json "email") ≠ "") (hc : trim (asString json "code") ≠ "")
    (hf : s.pendingVerifications_.find (trim (asString json "email")) = none) :
    verifyCode s (some json) now = (s, errorResponse 404 "verification not found") := by
  unfold verifyCode
  simp [hme, hmc, he, hc, hf]

theorem verifyCode_expired (s : State) (json : JsonObject) (now : Nat)
    (p : PendingVerification)
    (hme : isMember json "email" = true) (hmc : isMember json "code" = true)
    (he : trim (asString json "email") ≠ "") (hc : trim (asString json "code") ≠ "")
    (hf : s.pendingVerifications_.find (trim (asString json "email")) = some p)
    (hnow : now > p.expiresAt) :
    verifyCode s (some json) now =
      ({ s with pendingVerifications_ :=
            s.pendingVerifications_.erase (trim (asString json "email")) },
       errorResponse 400 "verification expired") := by
  unfold verifyCode
  simp [hme, hmc, he, hc, hf, hnow]

theorem verifyCode_mismatch (s : State) (json : JsonObject) (now : Nat)
    (p : PendingVerification)
    (hme : isMember json "email" = true) (hmc : isMember json "code" = true)
    (he : trim (asString json "email") ≠ "") (hc : trim (asString json "code") ≠ "")
    (hf : s.pendingVerifications_.find (trim (asString json "email")) = some p)
    (hnow : now ≤ p.expiresAt) (hcode : p.code ≠ trim (asString json "code")) :
    verifyCode s (some json) now = (s, errorResponse 400 "invalid verification code") := by
  unfold verifyCode
  simp [hme, hmc, he, hc, hf, Nat.not_lt.2 hnow, hcode]

theorem verifyCode_verified (s : State) (json : JsonObject) (now : Nat)
    (p : PendingVerification)
    (hme : isMember json "email" = true) (hmc : isMember json "code" = true)
    (he : trim (asString json "email") ≠ "") (hc : trim (asString json "code") ≠ "")
    (hf : s.pendingVerifications_.find (trim (asString json "email")) = some p)
    (hnow : now ≤ p.expiresAt) (hcode : p.code = trim (asString json "code")) :
    verifyCode s (some json) now =
      ({ s with pendingVerifications_ :=
            (s.pendingVerifications_.assign (trim (asString json "email"))
              { p with verified := true }) },
       messageResponse "email verified") := by
  unfold verifyCode
  simp [hme, hmc, he, hc, hf, Nat.not_lt.2 hnow, hcode]

/-- Every call of `verifyCode` either fails and leaves the state as it was, or finds the
record expired and erases it, or finds the code matching within the validity window and
sets the flag. -/
theorem verifyCode_cases (s : State) (req : Request) (now : Nat) :
    ((verifyCode s req now).1 = s ∧ (verifyCode s req now).2.status ≠ 200) ∨
    (∃ p, s.pendingVerifications_.find (emailOf req) = some p ∧ now > p.expiresAt ∧
      verifyCode s req now =
        ({ s with pendingVerifications_ := s.pendingVerifications_.erase (emailOf req) },
         errorResponse 400 "verification expired")) ∨
    (∃ p, s.pendingVerifications_.find (emailOf req) = some p ∧ now ≤ p.expiresAt ∧
      p.code = codeOf req ∧ emailOf req ≠ "" ∧ codeOf req ≠ "" ∧
      verifyCode s req now =
        ({ s with pendingVerifications_ :=
              s.pendingVerifications_.assign (emailOf req) { p with verified := true } },
         messageResponse "email verified")) := by
  cases req with
  | none => left; exact ⟨rfl, by simp [requestVerification, verifyCode]⟩
  | some json =>
    by_cases hme : isMember json "email" = true
    · by_cases hmc : isMember json "code" = true
      · by_cases he : trim (asString json "email") = ""
        · left; simp [verifyCode, hme, hmc, he]
        · by_cases hc : trim (asString json "code") = ""
          · left; simp [verifyCode, hme, hmc, hc]
          · cases hf : s.pendingVerifications_.find (trim (asString json "email")) with
            | none =>
              left
              rw [verifyCode_not_found s json now hme hmc he hc hf]
              exact ⟨rfl, by simp⟩
            | some p =>
              by_cases hnow : now > p.expiresAt
              · right; left
                exact ⟨p, hf, hnow, verifyCode_expired s json now p hme hmc he hc hf hnow⟩
              · have hle : now ≤ p.expiresAt := Nat.not_lt.1 hnow
                by_cases hcode : p.code = trim (asString json "code")
                · right; right
                  exact ⟨p, hf, hle, hcode, he, hc,
                    verifyCode_verified s json now p hme hmc he hc hf hle hcode⟩
                · left
                  rw [verifyCode_mismatch s json now p hme hmc he hc hf hle hcode]
                  exact ⟨rfl, by simp⟩
      · left; simp [verifyCode, hme, hmc]
    · left; simp [verifyCode, hme]
theorem signup_not_pending (s : State) (json : JsonObject) (now : Nat)
    (hme : isMember json "email" = true) (hmp : isMember json "password" = true)
    (hmn : isMember json "name" = true)
    (he : trim (asString json "email") ≠ "") (hn : trim (asString json "name") ≠ "")
    (hp : asString json "password" ≠ "")
    (hf : s.pendingVerifications_.find (trim (asString json "email")) = none) :
    signup s (some json) now = (s, errorResponse 400 "email must be verified before signup") := by
  unfold signup
  simp [hme, hmp, hmn, he, hn, hp, hf]

theorem signup_not_verified (s : State) (json : JsonObject) (now : Nat)
    (p : PendingVerification)
    (hme : isMember json "email" = true) (hmp : isMember json "password" = true)
    (hmn : isMember json "name" = true)
    (he : trim (asString json "email") ≠ "") (hn : trim (asString json "name") ≠ "")
    (hp : asString json "password" ≠ "")
    (hf : s.pendingVerifications_.find (trim (asString json "email")) = some p)
    (hv : p.verified = false ∨ now > p.expiresAt) :
    signup s (some json) now = (s, errorResponse 400 "email must be verified before signup") := by
  unfold signup
  rcases hv with hv | hv
  · simp [hme, hmp, hmn, he, hn, hp, hf, hv]
  · simp [hme, hmp, hmn, he, hn, hp, hf, hv]

theorem signup_conflict (s : State) (json : JsonObject) (now : Nat)
    (p : PendingVerification) (u : User)
    (hme : isMember json "email" = true) (hmp : isMember json "password" = true)
    (hmn : isMember json "name" = true)
    (he : trim (asString json "email") ≠ "") (hn : trim (asString json "name") ≠ "")
    (hp : asString json "password" ≠ "")
    (hf : s.pendingVerifications_.find (trim (asString json "email")) = some p)
    (hv : p.verified = true) (hnow : now ≤ p.expiresAt)
    (hu : s.users_.find (trim (asString json "email")) = some u) :
    signup s (some json) now = (s, errorResponse 409 "user already exists") := by
  unfold signup
  simp [hme, hmp, hmn, he, hn, hp, hf, hv, Nat.not_lt.2 hnow, hu]

theorem signup_registered (s : State) (json : JsonObject) (now : Nat)
    (p : PendingVerification)
    (hme : isMember json "email" = true) (hmp : isMember json "password" = true)
    (hmn : isMember json "name" = true)
    (he : trim (asString json "email") ≠ "") (hn : trim (asString json "name") ≠ "")
    (hp : asString json "password" ≠ "")
    (hf : s.pendingVerifications_.find (trim (asString json "email")) = some p)
    (hv : p.verified = true) (hnow : now ≤ p.expiresAt)
    (hu : s.users_.find (trim (asString json "email")) = none) :
    signup s (some json) now =
      ({ users_ := s.users_.assign (trim (asString json "email"))
            ⟨trim (asString json "email"), asString json "password",
              trim (asString json "name")⟩,
         pendingVerifications_ :=
            s.pendingVerifications_.erase (trim (asString json "email")),
         dbFile := some ((s.users_.assign (trim (asString json "email"))
            ⟨trim (asString json "email"), asString json "password",
              trim (asString json "name")⟩).entries.map Prod.snd) },
       sessionResponse (makeToken (trim (asString json "email")))
         (trim (asString json "name")) (trim (asString json "email"))) := by
  unfold signup
  simp [hme, hmp, hmn, he, hn, hp, hf, hv, Nat.not_lt.2 hnow, hu]

/-- Every call of `signup` either fails and leaves the state as it was, or finds a
verified record that has not expired and no account, and registers the account. -/
theorem signup_cases (s : State) (req : Request) (now : Nat) :
    ((signup s req now).1 = s ∧ (signup s req now).2.status ≠ 200) ∨
    (∃ p, s.pendingVerifications_.find (emailOf req) = some p ∧ p.verified = true ∧
      now ≤ p.expiresAt ∧ s.users_.find (emailOf req) = none ∧ emailOf req ≠ "" ∧
      (signup s req now).1.users_.find (emailOf req) ≠ none ∧
      (signup s req now).1.pendingVerifications_ =
        s.pendingVerifications_.erase (emailOf req) ∧
      (signup s req now).2.status = 200) := by
  cases req with
  | none => left; exact ⟨rfl, by simp [signup]⟩
  | some json =>
    by_cases hme : isMember json "email" = true
    · by_cases hmp : isMember json "password" = true
      · by_cases hmn : isMember json "name" = true
        · by_cases he : trim (asString json "email") = ""
          · left; simp [signup, hme, hmp, hmn, he]
          · by_cases hn : trim (asString json "name") = ""
            · left; simp [signup, hme, hmp, hmn, hn]
            · by_cases hp : asString json "password" = ""
              · left; simp [signup, hme, hmp, hmn, hp]
              · cases hf : s.pendingVerifications_.find (trim (asString json "email")) with
                | none =>
                  left
                  rw [signup_not_pending s json now hme hmp hmn he hn hp hf]
                  exact ⟨rfl, by simp⟩
                | some p =>
                  by_cases hv : p.verified = true
                  · by_cases hnow : now > p.expiresAt
                    · left
                      rw [signup_not_verified s json now p hme hmp hmn he hn hp hf
                        (Or.inr hnow)]
                      exact ⟨rfl, by simp⟩
                    · have hle : now ≤ p.expiresAt := Nat.not_lt.1 hnow
                      cases hu : s.users_.find (trim (asString json "email")) with
                      | some u =>
                        left
                        rw [signup_conflict s json now p u hme hmp hmn he hn hp hf hv hle hu]
                        exact ⟨rfl, by simp⟩
                      | none =>
                        right
                        rw [signup_registered s json now p hme hmp hmn he hn hp hf hv hle hu]
                        exact ⟨p, hf, hv, hle, hu, he, by simp [emailOf], rfl, rfl⟩
                  · left
                    have hv2 : p.verified = false := by simpa using hv
                    rw [signup_not_verified s json now p hme hmp hmn he hn hp hf
                      (Or.inl hv2)]
                    exact ⟨rfl, by simp⟩
        · left; simp [signup, hme, hmp, hmn]
      · left; simp [signup, hme, hmp]
    · left; simp [signup, hme]
/-! ## Facts about sequences of calls -/

theorem run_append (l1 l2 : List (Call × Nat)) :
    ∀ s : State, run s (l1 ++ l2) = run (run s l1) l2 := by
  induction l1 with
  | nil => intro s; rfl
  | cons x t ih =>
    intro s
    obtain ⟨c, now⟩ := x
    simp only [List.cons_append, run]
    exact ih _

theorem run_concat (s : State) (l : List (Call × Nat)) (c : Call) (now : Nat) :
    run s (l ++ [(c, now)]) = (step (run s l) c now).1 := by
  rw [run_append]
  rfl

/-- What one call does to the record of one email: nothing, or the record is gone, or a
delivered `requestVerification` for that email installed a fresh unverified record, or a
`verifyCode` for that email matched the code in time and set the flag. -/
theorem step_pending (s : State) (c : Call) (now : Nat) (e : String) :
    (step s c now).1.pendingVerifications_.find e = s.pendingVerifications_.find e ∨
    (step s c now).1.pendingVerifications_.find e = none ∨
    (∃ req value, c = Call.requestVerification req value true ∧ emailOf req = e ∧
      (requestVerification s req value true now).2.status = 200 ∧
      (step s c now).1.pendingVerifications_.find e =
        some ⟨generateVerificationCode value, now + kVerificationLifetime, false⟩) ∨
    (∃ req p, c = Call.verifyCode req ∧ emailOf req = e ∧ codeOf req = p.code ∧
      now ≤ p.expiresAt ∧ (verifyCode s req now).2.status = 200 ∧
      s.pendingVerifications_.find e = some p ∧
      (step s c now).1.pendingVerifications_.find e = some { p with verified := true }) := by
  cases c with
  | requestVerification req value mailOk =>
    simp only [step]
    rcases requestVerification_cases s req value mailOk now with ⟨h, _⟩ | ⟨hm, _, _, h⟩
    · left; rw [h]
    · subst hm
      by_cases he : e = emailOf req
      · right; right; left
        refine ⟨req, value, rfl, he.symm, by rw [h]; rfl, ?_⟩
        rw [h, he]
        exact Map.find_assign_self _ _ _
      · left
        rw [h]
        exact Map.find_assign_ne _ _ _ _ he
  | verifyCode req =>
    simp only [step]
    rcases verifyCode_cases s req now with ⟨h, _⟩ | ⟨p, _, _, h⟩ | ⟨p, hf, hnow, hcode, _, _, h⟩
    · left; rw [h]
    · by_cases he : e = emailOf req
      · right; left
        rw [h, he]
        exact Map.find_erase_self _ _
      · left
        rw [h]
        exact Map.find_erase_ne _ _ _ he
    · by_cases he : e = emailOf req
      · right; right; right
        refine ⟨req, p, rfl, he.symm, hcode.symm, hnow, by rw [h]; rfl, by rw [he]; exact hf, ?_⟩
        rw [h, he]
        exact Map.find_assign_self _ _ _
      · left
        rw [h]
        exact Map.find_assign_ne _ _ _ _ he
  | signup req =>
    simp only [step]
    rcases signup_cases s req now with ⟨h, _⟩ | ⟨p, _, _, _, _, _, _, h, _⟩
    · left; rw [h]
    · by_cases he : e = emailOf req
      · right; left
        rw [h, he]
        exact Map.find_erase_self _ _
      · left
        rw [h]
        exact Map.find_erase_ne _ _ _ he
  | login req =>
    left
    simp only [step]
    rw [login_state]
/-- A record that one more call leaves untouched stays accounted for. -/
theorem Accounted.extend {s0 : State} {calls : List (Call × Nat)} {e : String}
    {p r : PendingVerification} (c : Call) (now : Nat)
    (hacc : Accounted s0 calls e p)
    (hcode : r.code = p.code) (hexp : r.expiresAt = p.expiresAt)
    (hfind : (run s0 (calls ++ [(c, now)])).pendingVerifications_.find e = some r)
    (hver : r.verified = true → p.verified = true ∨
      ∃ vq, c = Call.verifyCode vq ∧ emailOf vq = e ∧ codeOf vq = p.code ∧
        now ≤ p.expiresAt ∧ (verifyCode (run s0 calls) vq now).2.status = 200) :
    Accounted s0 (calls ++ [(c, now)]) e r := by
  obtain ⟨before, rq, value, t0, rest, hcalls, hrq, hst, hc, hx, hpersist, hver0⟩ := hacc
  refine ⟨before, rq, value, t0, rest ++ [(c, now)], ?_, hrq, hst, ?_, ?_, ?_, ?_⟩
  · rw [hcalls]; simp
  · rw [hcode, hc]
  · rw [hexp, hx]
  · intro mid hmid
    rcases List.prefix_concat_iff.1 hmid with hm | hm
    · refine ⟨r.verified, ?_⟩
      have hrun : before ++ (Call.requestVerification rq value true, t0) :: mid =
          calls ++ [(c, now)] := by rw [hm, hcalls]; simp
      rw [hrun, hfind]
    · obtain ⟨v, hv⟩ := hpersist mid hm
      exact ⟨v, by rw [hcode, hexp]; exact hv⟩
  · intro hr
    rcases hver hr with hp | ⟨vq, hcv, hev, hcq, hnow, hok⟩
    · obtain ⟨between, vq, t1, after, hrest, hev, hcq, ht1, hok⟩ := hver0 hp
      refine ⟨between, vq, t1, after ++ [(c, now)], ?_, hev, ?_, ?_, hok⟩
      · rw [hrest]; simp
      · rw [hcode]; exact hcq
      · rw [hexp]; exact ht1
    · refine ⟨rest, vq, now, [], ?_, hev, ?_, ?_, ?_⟩
      · rw [hcv]
      · rw [hcode]; exact hcq
      · rw [hexp]; exact hnow
      · rw [← hcalls]; exact hok

/-- Every record of a registry that started empty is accounted for by the calls made. -/
theorem run_accounted (s0 : State) (h0 : s0.pendingVerifications_ = Map.empty) :
    ∀ (calls : List (Call × Nat)) (e : String) (r : PendingVerification),
      (run s0 calls).pendingVerifications_.find e = some r → Accounted s0 calls e r := by
  intro calls
  induction calls using List.reverseRecOn with
  | nil =>
    intro e r h
    simp only [run] at h
    rw [h0] at h
    simp at h
  | append_singleton calls x ih =>
    obtain ⟨c, now⟩ := x
    intro e r h
    have h2 := h
    rw [run_concat] at h2
    rcases step_pending (run s0 calls) c now e with
      h1 | h1 | ⟨req, value, hc, he, hst, hf⟩ | ⟨req, p, hc, he, hcode, hnow, hst, hfp, hf⟩
    · rw [h1] at h2
      exact Accounted.extend c now (ih e r h2) rfl rfl h (fun hr => Or.inl hr)
    · rw [h1] at h2
      simp at h2
    · rw [hf] at h2
      have hr : r = ⟨generateVerificationCode value, now + kVerificationLifetime, false⟩ := by
        injection h2 with h2; exact h2.symm
      subst hr
      refine ⟨calls, req, value, now, [], by rw [hc], he, hst, rfl, rfl, ?_, ?_⟩
      · intro mid hmid
        have hm : mid = [] := List.prefix_nil.1 hmid
        subst hm
        refine ⟨false, ?_⟩
        rw [← hc]
        exact h
      · intro hv
        simp at hv
    · rw [hf] at h2
      have hr : r = { p with verified := true } := by
        injection h2 with h2; exact h2.symm
      subst hr
      exact Accounted.extend c now (ih e p hfp) rfl rfl h
        (fun _ => Or.inr ⟨req, hc, he, hcode, hnow, hst⟩)

/-! ## Claim C1: signup only after verification -/

/-- C1: start from any state whose registry is empty and run any sequence of the four
calls, each an atomic step with its own clock reading. Then every pending record held
afterwards is accounted for by the calls (`Accounted`): a delivered `requestVerification`
for its email installed its code and expiry, and if the record is verified, a later
`verifyCode` for that email supplied that code no later than the expiry. And a `signup`
at time `t` succeeds only on such a record, verified and with `t` no later than its
expiry. -/
theorem signup_only_after_verification (s0 : State)
    (h0 : s0.pendingVerifications_ = Map.empty) (calls : List (Call × Nat)) :
    (∀ e r, (run s0 calls).pendingVerifications_.find e = some r → Accounted s0 calls e r) ∧
    (∀ req t, (signup (run s0 calls) req t).2.status = 200 →
      ∃ r, (run s0 calls).pendingVerifications_.find (emailOf req) = some r ∧
        r.verified = true ∧ t ≤ r.expiresAt ∧ Accounted s0 calls (emailOf req) r) := by
  refine ⟨run_accounted s0 h0 calls, ?_⟩
  intro req t hok
  rcases signup_cases (run s0 calls) req t with ⟨_, hne⟩ | ⟨p, hf, hv, ht, _⟩
  · exact absurd hok hne
  · exact ⟨p, hf, hv, ht, run_accounted s0 h0 calls _ p hf⟩
/-- C1 at a concrete run: from the empty state, a verification is requested for
`a@x.com ` at time 0 (draw 42), the code `000042` is confirmed at time 5, and the signup at
time 7 succeeds on a record that the two calls account for. -/
theorem signup_only_after_verification_witness :
    (⟨⟨[]⟩, ⟨[]⟩, none⟩ : State).pendingVerifications_ = Map.empty ∧
    (signup
      (run ⟨⟨[]⟩, ⟨[]⟩, none⟩
        [(Call.requestVerification (some [("email", "a@x.com ")]) 42 true, 0),
         (Call.verifyCode (some [("email", "a@x.com"), ("code", "000042")]), 5)])
      (some [("email", "a@x.com"), ("password", "p"), ("name", "A")]) 7).2.status = 200 ∧
    ∃ r,
      (run ⟨⟨[]⟩, ⟨[]⟩, none⟩
        [(Call.requestVerification (some [("email", "a@x.com ")]) 42 true, 0),
         (Call.verifyCode (some [("email", "a@x.com"), ("code", "000042")]), 5)]
        ).pendingVerifications_.find
          (emailOf (some [("email", "a@x.com"), ("password", "p"), ("name", "A")])) = some r ∧
      r.verified = true ∧ 7 ≤ r.expiresAt ∧
      Accounted ⟨⟨[]⟩, ⟨[]⟩, none⟩
        [(Call.requestVerification (some [("email", "a@x.com ")]) 42 true, 0),
         (Call.verifyCode (some [("email", "a@x.com"), ("code", "000042")]), 5)]
        (emailOf (some [("email", "a@x.com"), ("password", "p"), ("name", "A")])) r :=
  ⟨rfl, by decide,
   (signup_only_after_verification ⟨⟨[]⟩, ⟨[]⟩, none⟩ rfl
      [(Call.requestVerification (some [("email", "a@x.com ")]) 42 true, 0),
       (Call.verifyCode (some [("email", "a@x.com"), ("code", "000042")]), 5)]).2
      (some [("email", "a@x.com"), ("password", "p"), ("name", "A")]) 7 (by decide)⟩

/-! ## Claim C2: a second signup for the same email -/

/-- C8: for every state and every email that is non-empty after trimming and has no
account, a `requestVerification` whose mail is delivered succeeds; a `verifyCode` for that
email with exactly the emitted code, at a time within the validity window of ten minutes,
then answers "email verified" and sets the flag of the record; and once a successful
`signup` for that email has consumed the record, a `verifyCode` with the same code is
answered 404 "verification not found". -/
theorem emitted_code_verifies_once (s : State) (json : JsonObject) (value t0 : Nat)
    (hme : isMember json "email" = true) (he : trim (asString json "email") ≠ "")
    (hu : s.users_.find (trim (asString json "email")) = none) :
    (requestVerification s (some json) value true t0).2 =
      messageResponse "verification code sent" ∧
    ∀ (vjson : JsonObject) (t1 : Nat),
      isMember vjson "email" = true → isMember vjson "code" = true →
      trim (asString vjson "email") = trim (asString json "email") →
      asString vjson "code" = generateVerificationCode value →
      t1 ≤ t0 + kVerificationLifetime →
      (verifyCode (requestVerification s (some json) value true t0).1 (some vjson) t1).2 =
        messageResponse "email verified" ∧
      (verifyCode (requestVerification s (some json) value true t0).1 (some vjson) t1
        ).1.pendingVerifications_.find (trim (asString json "email")) =
          some ⟨generateVerificationCode value, t0 + kVerificationLifetime, true⟩ ∧
      ∀ (sreq : Request) (t2 : Nat),
        emailOf sreq = trim (asString json "email") →
        (signup
          (verifyCode (requestVerification s (some json) value true t0).1 (some vjson) t1).1
          sreq t2).2.status = 200 →
        ∀ (vjson2 : JsonObject) (t3 : Nat),
          isMember vjson2 "email" = true → isMember vjson2 "code" = true →
          trim (asString vjson2 "email") = trim (asString json "email") →
          asString vjson2 "code" = generateVerificationCode value →
          (verifyCode
            (signup
              (verifyCode (requestVerification s (some json) value true t0).1
                (some vjson) t1).1
              sreq t2).1 (some vjson2) t3).2 =
            errorResponse 404 "verification not found" := by
  have h1 := requestVerification_sent s json value t0 hme he hu
  refine ⟨by rw [h1], ?_⟩
  intro vjson t1 hme1 hmc1 hsame1 hcode1 ht1
  have hc1 : trim (asString vjson "code") = generateVerificationCode value := by
    rw [hcode1]; exact trim_generateVerificationCode value
  have hf1 : (requestVerification s (some json) value true t0).1.pendingVerifications_.find
      (trim (asString vjson "email")) =
      some ⟨generateVerificationCode value, t0 + kVerificationLifetime, false⟩ := by
    rw [h1, hsame1]
    exact Map.find_assign_self _ _ _
  have h2 := verifyCode_verified (requestVerification s (some json) value true t0).1 vjson t1
    ⟨generateVerificationCode value, t0 + kVerificationLifetime, false⟩ hme1 hmc1
    (by rw [hsame1]; exact he)
    (by rw [hc1]; exact generateVerificationCode_ne_empty value) hf1 ht1 hc1.symm
  refine ⟨by rw [h2], ?_, ?_⟩
  · rw [h2, hsame1]
    exact Map.find_assign_self _ _ _
  · intro sreq t2 hsreq hok vjson2 t3 hme2 hmc2 hsame2 hcode2
    have hc2 : trim (asString vjson2 "code") = generateVerificationCode value := by
      rw [hcode2]; exact trim_generateVerificationCode value
    rcases signup_cases
      (verifyCode (requestVerification s (some json) value true t0).1 (some vjson) t1).1
      sreq t2 with ⟨_, hne⟩ | ⟨p, _, _, _, _, _, _, hpend, _⟩
    · exact absurd hok hne
    · rw [verifyCode_not_found _ vjson2 t3 hme2 hmc2 (by rw [hsame2]; exact he)
        (by rw [hc2]; exact generateVerificationCode_ne_empty value)
        (by rw [hpend, hsreq, hsame2]; exact Map.find_erase_self _ _)]

/-- C8 at a concrete input: the scenario of section 8 for `"a@x.com "`, draw 42. -/
theorem emitted_code_verifies_once_witness :
    (verifyCode
      (requestVerification ⟨⟨[]⟩, ⟨[]⟩, none⟩ (some [("email", "a@x.com ")]) 42 true 0).1
      (some [("email", "a@x.com"), ("code", "000042")]) kVerificationLifetime).2 =
        messageResponse "email verified" ∧
    (signup
      (verifyCode
        (requestVerification ⟨⟨[]⟩, ⟨[]⟩, none⟩ (some [("email", "a@x.com ")]) 42 true 0).1
        (some [("email", "a@x.com"), ("code", "000042")]) kVerificationLifetime).1
      (some [("email", "a@x.com"), ("password", "p"), ("name", "A")]) 7).2.status = 200 ∧
    (verifyCode
      (signup
        (verifyCode
          (requestVerification ⟨⟨[]⟩, ⟨[]⟩, none⟩ (some [("email", "a@x.com ")]) 42 true 0).1
          (some [("email", "a@x.com"), ("code", "000042")]) kVerificationLifetime).1
        (some [("email", "a@x.com"), ("password", "p"), ("name", "A")]) 7).1
      (some [("email", "a@x.com"), ("code", "000042")]) 8).2 =
        errorResponse 404 "verification not found" :=
  ⟨((emitted_code_verifies_once ⟨⟨[]⟩, ⟨[]⟩, none⟩ [("email", "a@x.com ")] 42 0
      (by decide) (by decide) (by decide)).2
      [("email", "a@x.com"), ("code", "000042")] kVerificationLifetime
      (by decide) (by decide) (by decide) (by decide) (by decide)).1,
   by decide,
   ((emitted_code_verifies_once ⟨⟨[]⟩, ⟨[]⟩, none⟩ [("email", "a@x.com ")] 42 0
      (by decide) (by decide) (by decide)).2
      [("email", "a@x.com"), ("code", "000042")] kVerificationLifetime
      (by decide) (by decide) (by decide) (by decide) (by decide)).2.2
      (some [("email", "a@x.com"), ("password", "p"), ("name", "A")]) 7
      (by decide) (by decide)
      [("email", "a@x.com"), ("code", "000042")] 8
      (by decide) (by decide) (by decide) (by decide)⟩

/-! ## Claim C9: a failed delivery -/

/-- C9 fails as stated: the registry holds a record for `a@x.com`, which has no account;
a `requestVerification` for `a@x.com` whose mail delivery fails is answered 500, and
afterwards the registry still holds that record. -/
theorem failed_send_retains_record :
    (⟨⟨[]⟩, ⟨[("a@x.com", ⟨"000042", 600, false⟩)]⟩, none⟩ : State).users_.find "a@x.com"
      = none ∧
    trim "a@x.com" ≠ "" ∧
    (requestVerification ⟨⟨[]⟩, ⟨[("a@x.com", ⟨"000042", 600, false⟩)]⟩, none⟩
      (some [("email", "a@x.com")]) 7 false 1).2 =
        errorResponse 500 "failed to send verification email" ∧
    (requestVerification ⟨⟨[]⟩, ⟨[("a@x.com", ⟨"000042", 600, false⟩)]⟩, none⟩
      (some [("email", "a@x.com")]) 7 false 1).1.pendingVerifications_.find "a@x.com" =
        some ⟨"000042", 600, false⟩ ∧
    (requestVerification ⟨⟨[]⟩, ⟨[("a@x.com", ⟨"000042", 600, false⟩)]⟩, none⟩
      (some [("email", "a@x.com")]) 7 false 1).1.pendingVerifications_.find "a@x.com" ≠
        none := by
  decide

/-- C9 as amended: for every state and every email that is non-empty after trimming and
has no account, a `requestVerification` whose mail delivery fails is answered
500 "failed to send verification email" and leaves the whole state as it was: no record is
created, so an email that had no pending record has none afterwards, and a record that
the email had before the call is still there. -/
theorem failed_send_changes_nothing (s : State) (json : JsonObject) (value now : Nat)
    (hme : isMember json "email" = true) (he : trim (asString json "email") ≠ "")
    (hu : s.users_.find (trim (asString json "email")) = none) :
    requestVerification s (some json) value false now =
      (s, errorResponse 500 "failed to send verification email") ∧
    (s.pendingVerifications_.find (trim (asString json "email")) = none →
      (requestVerification s (some json) value false now).1.pendingVerifications_.find
        (trim (asString json "email")) = none) ∧
    (∀ p, s.pendingVerifications_.find (trim (asString json "email")) = some p →
      (requestVerification s (some json) value false now).1.pendingVerifications_.find
        (trim (asString json "email")) = some p) := by
  have h := requestVerification_mail_failed s json value now hme he hu
  refine ⟨h, ?_, ?_⟩
  · intro hn; rw [h]; exact hn
  · intro p hp; rw [h]; exact hp

/-- C9 as amended, at a concrete input: a failed delivery on the empty state. -/
theorem failed_send_changes_nothing_witness :
    requestVerification ⟨⟨[]⟩, ⟨[]⟩, none⟩ (some [("email", " a@x.com")]) 7 false 1 =
      (⟨⟨[]⟩, ⟨[]⟩, none⟩, errorResponse 500 "failed to send verification email") :=
  (failed_send_changes_nothing ⟨⟨[]⟩, ⟨[]⟩, none⟩ [("email", " a@x.com")] 7 1
    (by decide) (by decide) (by decide)).1
/-! ## Claim C10: the record a delivered request installs -/

theorem Map.keys_assignIn_nodup {V : Type} (k : String) (v : V) :
    ∀ l : List (String × V), (l.map Prod.fst).Nodup →
      ((Map.assignIn k v l).map Prod.fst).Nodup ∧
      (∀ x, x ∈ (Map.assignIn k v l).map Prod.fst → x = k ∨ x ∈ l.map Prod.fst) := by
  intro l
  induction l with
  | nil =>
    intro _
    simp [Map.assignIn]
  | cons p t ih =>
    obtain ⟨k', v'⟩ := p
    intro hnd
    have hnd2 : k' ∉ t.map Prod.fst ∧ (t.map Prod.fst).Nodup := by
      simpa using hnd
    by_cases h : k' = k
    · subst h
      simp only [Map.assignIn, if_true]
      exact ⟨hnd, fun x hx => Or.inr hx⟩
    · simp only [Map.assignIn, if_neg h]
      obtain ⟨ih1, ih2⟩ := ih hnd2.2
      constructor
      · rw [List.map_cons, List.nodup_cons]
        refine ⟨?_, ih1⟩
        intro hmem
        rcases ih2 k' hmem with hk | hk
        · exact h hk
        · exact hnd2.1 hk
      · intro x hx
        rw [List.map_cons, List.mem_cons] at hx
        rcases hx with hx | hx
        · right; rw [hx]; simp
        · rcases ih2 x hx with hk | hk
          · left; exact hk
          · right; simp only [List.map_cons, List.mem_cons]; right; exact hk

theorem Map.filter_absent {V : Type} (k : String) :
    ∀ l : List (String × V), k ∉ l.map Prod.fst →
      l.filter (fun p => decide (p.1 = k)) = [] := by
  intro l hk
  rw [List.filter_eq_nil_iff]
  intro p hp hpk
  apply hk
  have : p.1 = k := by simpa using hpk
  rw [← this]
  exact List.mem_map_of_mem Prod.fst hp

theorem Map.filter_assignIn {V : Type} (k : String) (v : V) :
    ∀ l : List (String × V), (l.map Prod.fst).Nodup →
      (Map.assignIn k v l).filter (fun p => decide (p.1 = k)) = [(k, v)] := by
  intro l
  induction l with
  | nil => intro _; simp [Map.assignIn]
  | cons p t ih =>
    obtain ⟨k', v'⟩ := p
    intro hnd
    have hnd2 : k' ∉ t.map Prod.fst ∧ (t.map Prod.fst).Nodup := by
      simpa using hnd
    by_cases h : k' = k
    · subst h
      simp only [Map.assignIn, if_true]
      rw [List.filter_cons_of_pos (by simp), Map.filter_absent k' t hnd2.1]
    · simp only [Map.assignIn, if_neg h]
      rw [List.filter_cons_of_neg (by simpa using h)]
      exact ih hnd2.2

/-- C10: for every state, every email that is non-empty after trimming and has no account,
and every time `now`, a `requestVerification` whose mail is delivered answers
"verification code sent" and leaves the registry with the record
`(generated code, now + ten minutes, false)` under the trimmed email, whatever record was
there before, as the one entry of that email; the records of all other emails, the user
store and the user file are as before. -/
theorem delivered_request_installs_record (s : State) (json : JsonObject) (value now : Nat)
    (hme : isMember json "email" = true) (he : trim (asString json "email") ≠ "")
    (hu : s.users_.find (trim (asString json "email")) = none) :
    (requestVerification s (some json) value true now).2 =
      messageResponse "verification code sent" ∧
    (requestVerification s (some json) value true now).1.pendingVerifications_.find
      (trim (asString json "email")) =
        some ⟨generateVerificationCode value, now + kVerificationLifetime, false⟩ ∧
    kVerificationLifetime = 10 * 60 * 1000000000 ∧
    (s.pendingVerifications_.WF →
      (requestVerification s (some json) value true now).1.pendingVerifications_.WF ∧
      (requestVerification s (some json) value true now).1.pendingVerifications_.entries.filter
        (fun entry => decide (entry.1 = trim (asString json "email"))) =
        [(trim (asString json "email"),
          ⟨generateVerificationCode value, now + kVerificationLifetime, false⟩)]) ∧
    (∀ k, k ≠ trim (asString json "email") →
      (requestVerification s (some json) value true now).1.pendingVerifications_.find k =
        s.pendingVerifications_.find k) ∧
    (requestVerification s (some json) value true now).1.users_ = s.users_ ∧
    (requestVerification s (some json) value true now).1.dbFile = s.dbFile := by
  have h := requestVerification_sent s json value now hme he hu
  rw [h]
  refine ⟨rfl, Map.find_assign_self _ _ _, rfl, ?_, ?_, rfl, rfl⟩
  · intro hwf
    exact ⟨(Map.keys_assignIn_nodup _ _ _ hwf).1, Map.filter_assignIn _ _ _ hwf⟩
  · intro k hk
    exact Map.find_assign_ne _ _ _ _ hk

/-- C10 at a concrete input: a delivered request for `"a@x.com "` at time 3 replaces the
verified record of `a@x.com` and leaves the record of `b@x.com` alone. -/
theorem delivered_request_installs_record_witness :
    (requestVerification
      ⟨⟨[]⟩, ⟨[("b@x.com", ⟨"000001", 9, false⟩), ("a@x.com", ⟨"000042", 600, true⟩)]⟩, none⟩
      (some [("email", "a@x.com ")]) 7 true 3).1.pendingVerifications_ =
      ⟨[("b@x.com", ⟨"000001", 9, false⟩),
        ("a@x.com", ⟨"000007", 3 + kVerificationLifetime, false⟩)]⟩ ∧
    (requestVerification
      ⟨⟨[]⟩, ⟨[("b@x.com", ⟨"000001", 9, false⟩), ("a@x.com", ⟨"000042", 600, true⟩)]⟩, none⟩
      (some [("email", "a@x.com ")]) 7 true 3).1.pendingVerifications_.find
        (trim (asString [("email", "a@x.com ")] "email")) =
      some ⟨generateVerificationCode 7, 3 + kVerificationLifetime, false⟩ :=
  ⟨by decide,
   (delivered_request_installs_record
      ⟨⟨[]⟩, ⟨[("b@x.com", ⟨"000001", 9, false⟩), ("a@x.com", ⟨"000042", 600, true⟩)]⟩, none⟩
      [("email", "a@x.com ")] 7 3 (by decide) (by decide) (by decide)).2.1⟩
/-! ## Claim C11: signup with an empty field -/

/-- C11 fails as stated: the registry holds a verified, unexpired record for `a@x.com`,
and the signup whose password is one space, which is empty after trimming, is not rejected:
it answers 200 and creates the account with that password. -/
theorem blank_password_accepted :
    trim " " = "" ∧
    (signup
      (run ⟨⟨[]⟩, ⟨[]⟩, none⟩
        [(Call.requestVerification (some [("email", "a@x.com ")]) 42 true, 0),
         (Call.verifyCode (some [("email", "a@x.com"), ("code", "000042")]), 5)])
      (some [("email", "a@x.com"), ("password", " "), ("name", "A")]) 7).2 =
        sessionResponse "demo::a@x.com" "A" "a@x.com" ∧
    (signup
      (run ⟨⟨[]⟩, ⟨[]⟩, none⟩
        [(Call.requestVerification (some [("email", "a@x.com ")]) 42 true, 0),
         (Call.verifyCode (some [("email", "a@x.com"), ("code", "000042")]), 5)])
      (some [("email", "a@x.com"), ("password", " "), ("name", "A")]) 7).1.users_.find
        "a@x.com" = some ⟨"a@x.com", " ", "A"⟩ ∧
    (signup
      (run ⟨⟨[]⟩, ⟨[]⟩, none⟩
        [(Call.requestVerification (some [("email", "a@x.com ")]) 42 true, 0),
         (Call.verifyCode (some [("email", "a@x.com"), ("code", "000042")]), 5)])
      (some [("email", "a@x.com"), ("password", " "), ("name", "A")]) 7).2 ≠
        errorResponse 400 "name, email and password required" := by
  decide

theorem signup_empty_field (s : State) (json : JsonObject) (now : Nat)
    (h : trim (asString json "email") = "" ∨ trim (asString json "name") = "" ∨
      asString json "password" = "") :
    signup s (some json) now = (s, errorResponse 400 "name, email and password required") := by
  unfold signup
  by_cases hm : (!isMember json "email" || !isMember json "password" ||
      !isMember json "name") = true
  · simp only [hm, if_true]
  · simp only [hm]
    simp only [Bool.false_eq_true, if_false]
    rw [if_pos h]

/-- C11 as amended: for every state and every signup request, if the email or the name is
empty after trimming, or the password, which is not trimmed, is the empty string, then
`signup` is rejected with 400 "name, email and password required" and the state, the user
store included, is as before. -/
theorem signup_rejects_empty_field (s : State) (json : JsonObject) (now : Nat)
    (h : trim (asString json "email") = "" ∨ trim (asString json "name") = "" ∨
      asString json "password" = "") :
    signup s (some json) now = (s, errorResponse 400 "name, email and password required") ∧
    (signup s (some json) now).1.users_ = s.users_ := by
  rw [signup_empty_field s json now h]
  exact ⟨rfl, rfl⟩

/-- C11 as amended, at concrete inputs: a name of whitespace only, and an empty password,
against a verified record. -/
theorem signup_rejects_empty_field_witness :
    signup ⟨⟨[]⟩, ⟨[("a@x.com", ⟨"000042", 600, true⟩)]⟩, none⟩
      (some [("email", "a@x.com"), ("password", "p"), ("name", " \t")]) 7 =
      (⟨⟨[]⟩, ⟨[("a@x.com", ⟨"000042", 600, true⟩)]⟩, none⟩,
        errorResponse 400 "name, email and password required") ∧
    signup ⟨⟨[]⟩, ⟨[("a@x.com", ⟨"000042", 600, true⟩)]⟩, none⟩
      (some [("email", "a@x.com"), ("password", ""), ("name", "A")]) 7 =
      (⟨⟨[]⟩, ⟨[("a@x.com", ⟨"000042", 600, true⟩)]⟩, none⟩,
        errorResponse 400 "name, email and password required") :=
  ⟨(signup_rejects_empty_field ⟨⟨[]⟩, ⟨[("a@x.com", ⟨"000042", 600, true⟩)]⟩, none⟩
      [("email", "a@x.com"), ("password", "p"), ("name", " \t")] 7 (by decide)).1,
   (signup_rejects_empty_field ⟨⟨[]⟩, ⟨[("a@x.com", ⟨"000042", 600, true⟩)]⟩, none⟩
      [("email", "a@x.com"), ("password", ""), ("name", "A")] 7 (by decide)).1⟩
/-! ## Claim C12: what a successful signup does -/

theorem Map.assignIn_absent {V : Type} (k : String) (v : V) :
    ∀ l : List (String × V), Map.findIn k l = none → Map.assignIn k v l = l ++ [(k, v)] := by
  intro l
  induction l with
  | nil => intro _; rfl
  | cons p t ih =>
    obtain ⟨k', v'⟩ := p
    intro h
    by_cases hk : k' = k
    · simp [Map.findIn, hk] at h
    · simp only [Map.findIn, if_neg hk] at h
      simp only [Map.assignIn, if_neg hk, List.cons_append, ih h]

/-- C12: for every state in which the trimmed email has a verified, unexpired pending
record and no account, a signup with non-empty fields (email and name non-empty after
trimming, as section 4.5 of the specification and the handler test them, and a non-empty
password) succeeds: it answers with the token `makeToken` of the trimmed email, the
trimmed name and the trimmed email; it adds the account
(trimmed email, password verbatim, trimmed name) under the trimmed email, as a new last
entry, and leaves the other accounts alone; it removes the pending record of the trimmed
email and no other; and it writes the records of the whole new user store to the file. -/
theorem signup_registers_account (s : State) (json : JsonObject) (now : Nat)
    (p : PendingVerification)
    (hme : isMember json "email" = true) (hmp : isMember json "password" = true)
    (hmn : isMember json "name" = true)
    (he : trim (asString json "email") ≠ "") (hn : trim (asString json "name") ≠ "")
    (hp : asString json "password" ≠ "")
    (hf : s.pendingVerifications_.find (trim (asString json "email")) = some p)
    (hv : p.verified = true) (hnow : now ≤ p.expiresAt)
    (hu : s.users_.find (trim (asString json "email")) = none) :
    (signup s (some json) now).2 =
      sessionResponse (makeToken (trim (asString json "email")))
        (trim (asString json "name")) (trim (asString json "email")) ∧
    (signup s (some json) now).1.users_.find (trim (asString json "email")) =
      some ⟨trim (asString json "email"), asString json "password",
        trim (asString json "name")⟩ ∧
    (signup s (some json) now).1.users_.entries =
      s.users_.entries ++
        [(trim (asString json "email"),
          ⟨trim (asString json "email"), asString json "password",
            trim (asString json "name")⟩)] ∧
    (∀ k, k ≠ trim (asString json "email") →
      (signup s (some json) now).1.users_.find k = s.users_.find k) ∧
    (signup s (some json) now).1.pendingVerifications_.find (trim (asString json "email"))
      = none ∧
    (∀ k, k ≠ trim (asString json "email") →
      (signup s (some json) now).1.pendingVerifications_.find k =
        s.pendingVerifications_.find k) ∧
    (signup s (some json) now).1.dbFile =
      some ((signup s (some json) now).1.users_.entries.map Prod.snd) := by
  rw [signup_registered s json now p hme hmp hmn he hn hp hf hv hnow hu]
  refine ⟨rfl, Map.find_assign_self _ _ _, Map.assignIn_absent _ _ _ hu, ?_,
    Map.find_erase_self _ _, ?_, rfl⟩
  · intro k hk
    exact Map.find_assign_ne _ _ _ _ hk
  · intro k hk
    exact Map.find_erase_ne _ _ _ hk

/-- C12 at the scenario of section 8: after the request for `"a@x.com "` and
the confirmation of the emitted code `000042`, the signup with name `A` and password `p`
answers with token `demo::a@x.com`, name `A`, email `a@x.com`. -/
theorem signup_registers_account_witness :
    (signup
      (run ⟨⟨[]⟩, ⟨[]⟩, none⟩
        [(Call.requestVerification (some [("email", "a@x.com ")]) 42 true, 0),
         (Call.verifyCode (some [("email", "a@x.com"), ("code", "000042")]), 5)])
      (some [("email", "a@x.com "), ("password", "p"), ("name", "A")]) 7).2 =
      sessionResponse (makeToken (trim (asString
          [("email", "a@x.com "), ("password", "p"), ("name", "A")] "email")))
        (trim (asString [("email", "a@x.com "), ("password", "p"), ("name", "A")] "name"))
        (trim (asString [("email", "a@x.com "), ("password", "p"), ("name", "A")] "email")) ∧
    sessionResponse (makeToken (trim (asString
          [("email", "a@x.com "), ("password", "p"), ("name", "A")] "email")))
        (trim (asString [("email", "a@x.com "), ("password", "p"), ("name", "A")] "name"))
        (trim (asString [("email", "a@x.com "), ("password", "p"), ("name", "A")] "email")) =
      sessionResponse "demo::a@x.com" "A" "a@x.com" :=
  ⟨(signup_registers_account
      (run ⟨⟨[]⟩, ⟨[]⟩, none⟩
        [(Call.requestVerification (some [("email", "a@x.com ")]) 42 true, 0),
         (Call.verifyCode (some [("email", "a@x.com"), ("code", "000042")]), 5)])
      [("email", "a@x.com "), ("password", "p"), ("name", "A")] 7
      ⟨"000042", kVerificationLifetime, true⟩
      (by decide) (by decide) (by decide) (by decide) (by decide) (by decide) (by decide)
      (by decide) (by decide) (by decide)).1,
   by decide⟩
/-! ## Claim C13: accounts are only ever added -/

/-- A `signup` that answers 200 went through every test of the handler. -/
theorem signup_ok_inv (s : State) (req : Request) (now : Nat)
    (hok : (signup s req now).2.status = 200) :
    ∃ json p, req = some json ∧
      isMember json "email" = true ∧ isMember json "password" = true ∧
      isMember json "name" = true ∧
      trim (asString json "email") ≠ "" ∧ trim (asString json "name") ≠ "" ∧
      asString json "password" ≠ "" ∧
      s.pendingVerifications_.find (trim (asString json "email")) = some p ∧
      p.verified = true ∧ now ≤ p.expiresAt ∧
      s.users_.find (trim (asString json "email")) = none := by
  cases req with
  | none => simp [signup] at hok
  | some json =>
    by_cases hme : isMember json "email" = true
    · by_cases hmp : isMember json "password" = true
      · by_cases hmn : isMember json "name" = true
        · by_cases he : trim (asString json "email") = ""
          · rw [signup_empty_field s json now (Or.inl he)] at hok
            simp at hok
          · by_cases hn : trim (asString json "name") = ""
            · rw [signup_empty_field s json now (Or.inr (Or.inl hn))] at hok
              simp at hok
            · by_cases hp : asString json "password" = ""
              · rw [signup_empty_field s json now (Or.inr (Or.inr hp))] at hok
                simp at hok
              · cases hf : s.pendingVerifications_.find (trim (asString json "email")) with
                | none =>
                  rw [signup_not_pending s json now hme hmp hmn he hn hp hf] at hok
                  simp at hok
                | some p =>
                  by_cases hv : p.verified = true
                  · by_cases hnow : now > p.expiresAt
                    · rw [signup_not_verified s json now p hme hmp hmn he hn hp hf
                        (Or.inr hnow)] at hok
                      simp at hok
                    · have hle : now ≤ p.expiresAt := Nat.not_lt.1 hnow
                      cases hu : s.users_.find (trim (asString json "email")) with
                      | some u =>
                        rw [signup_conflict s json now p u hme hmp hmn he hn hp hf hv hle hu]
                          at hok
                        simp at hok
                      | none =>
                        exact ⟨json, p, rfl, hme, hmp, hmn, he, hn, hp, hf, hv, hle, hu⟩
                  · have hv2 : p.verified = false := by simpa using hv
                    rw [signup_not_verified s json now p hme hmp hmn he hn hp hf
                      (Or.inl hv2)] at hok
                    simp at hok
        · simp [signup, hme, hmp, hmn] at hok
      · simp [signup, hme, hmp] at hok
    · simp [signup, hme] at hok

/-- A `signup` that does not answer 200 leaves the state as it was. -/
theorem signup_failed_state (s : State) (req : Request) (now : Nat)
    (h : (signup s req now).2.status ≠ 200) : (signup s req now).1 = s := by
  rcases signup_cases s req now with ⟨hs, _⟩ | ⟨_, _, _, _, _, _, _, _, hok⟩
  · exact hs
  · exact absurd hok h

/-- What one call does to the user store: nothing, or, for a `signup` that answers 200, one
new last entry under an email that had no account. -/
theorem step_users (s : State) (c : Call) (now : Nat) :
    (step s c now).1.users_ = s.users_ ∨
    ∃ req u, c = Call.signup req ∧ (signup s req now).2.status = 200 ∧
      s.users_.find (emailOf req) = none ∧ u.email = emailOf req ∧
      (step s c now).1.users_ = s.users_.assign (emailOf req) u ∧
      (step s c now).1.users_.entries = s.users_.entries ++ [(emailOf req, u)] := by
  cases c with
  | requestVerification req value mailOk =>
    left
    simp only [step]
    rcases requestVerification_cases s req value mailOk now with ⟨h, _⟩ | ⟨_, _, _, h⟩
    · rw [h]
    · rw [h]
  | verifyCode req =>
    left
    simp only [step]
    rcases verifyCode_cases s req now with ⟨h, _⟩ | ⟨p, _, _, h⟩ | ⟨p, _, _, _, _, _, h⟩
    · rw [h]
    · rw [h]
    · rw [h]
  | signup req =>
    simp only [step]
    by_cases hok : (signup s req now).2.status = 200
    · right
      obtain ⟨json, p, hreq, hme, hmp, hmn, he, hn, hp, hf, hv, hnow, hu⟩ :=
        signup_ok_inv s req now hok
      subst hreq
      refine ⟨some json, ⟨trim (asString json "email"), asString json "password",
        trim (asString json "name")⟩, rfl, hok, hu, rfl, ?_, ?_⟩
      · rw [signup_registered s json now p hme hmp hmn he hn hp hf hv hnow hu]
        rfl
      · rw [signup_registered s json now p hme hmp hmn he hn hp hf hv hnow hu]
        exact Map.assignIn_absent _ _ _ hu
    · left
      rw [signup_failed_state s req now hok]
  | login req =>
    left
    simp only [step]
    rw [login_state]

/-- An account that is in the store stays in it, unchanged, through every call. -/
theorem step_keeps_account (s : State) (c : Call) (now : Nat) (k : String) (u : User)
    (h : s.users_.find k = some u) : (step s c now).1.users_.find k = some u := by
  rcases step_users s c now with hs | ⟨req, v, _, _, hnone, _, ha, _⟩
  · rw [hs]; exact h
  · have hk : k ≠ emailOf req := by
      intro hk
      rw [hk, hnone] at h
      simp at h
    rw [ha, Map.find_assign_ne _ _ _ _ hk]
    exact h

theorem run_keeps_account (k : String) (u : User) (calls : List (Call × Nat)) :
    ∀ s : State, s.users_.find k = some u → (run s calls).users_.find k = some u := by
  induction calls with
  | nil => intro s h; exact h
  | cons x t ih =>
    intro s h
    obtain ⟨c, now⟩ := x
    simp only [run]
    exact ih _ (step_keeps_account s c now k u h)

/-- A `signup` that answers 200 has put the account of its request in the store, as a new
last entry, under an email that had none. -/
theorem signup_adds_account (s : State) (req : Request) (now : Nat)
    (hok : (signup s req now).2.status = 200) :
    ∃ json, req = some json ∧
      s.users_.find (trim (asString json "email")) = none ∧
      (signup s req now).1.users_.find (trim (asString json "email")) =
        some ⟨trim (asString json "email"), asString json "password",
          trim (asString json "name")⟩ ∧
      (signup s req now).1.users_.entries =
        s.users_.entries ++
          [(trim (asString json "email"),
            ⟨trim (asString json "email"), asString json "password",
              trim (asString json "name")⟩)] := by
  obtain ⟨json, p, hreq, hme, hmp, hmn, he, hn, hp, hf, hv, hnow, hu⟩ :=
    signup_ok_inv s req now hok
  subst hreq
  rw [signup_registered s json now p hme hmp hmn he hn hp hf hv hnow hu]
  exact ⟨json, rfl, hu, Map.find_assign_self _ _ _, Map.assignIn_absent _ _ _ hu⟩

/-- C13: for every state and every call of `requestVerification`, `verifyCode`, `login` or
`signup`, successful or not, each account in the user store before the call is in it
afterwards under the same key with the same email, password and name; the store is either
unchanged or, after a `signup` that answered 200, has exactly one more entry, for an email
that had no account; so a store with at most one account per email stays so. Every
`signup` that answers 200 does add its account: the email had none before, afterwards the
store holds (trimmed email, password, trimmed name) under the trimmed email, as the one
new entry; and every other call, a failed `signup` included, leaves the store as it was. -/
theorem accounts_only_added (s : State) (c : Call) (now : Nat) :
    (∀ k u, s.users_.find k = some u → (step s c now).1.users_.find k = some u) ∧
    ((step s c now).1.users_ = s.users_ ∨
      ∃ req u, c = Call.signup req ∧ (signup s req now).2.status = 200 ∧
        s.users_.find (emailOf req) = none ∧ u.email = emailOf req ∧
        (step s c now).1.users_.entries = s.users_.entries ++ [(emailOf req, u)]) ∧
    (s.users_.WF → (step s c now).1.users_.WF) ∧
    (∀ req, c = Call.signup req → (signup s req now).2.status = 200 →
      ∃ json, req = some json ∧
        s.users_.find (trim (asString json "email")) = none ∧
        (step s c now).1.users_.find (trim (asString json "email")) =
          some ⟨trim (asString json "email"), asString json "password",
            trim (asString json "name")⟩ ∧
        (step s c now).1.users_.entries =
          s.users_.entries ++
            [(trim (asString json "email"),
              ⟨trim (asString json "email"), asString json "password",
                trim (asString json "name")⟩)]) ∧
    ((¬ ∃ req, c = Call.signup req ∧ (signup s req now).2.status = 200) →
      (step s c now).1.users_ = s.users_) := by
  refine ⟨step_keeps_account s c now, ?_, ?_, ?_, ?_⟩
  · rcases step_users s c now with hs | ⟨req, u, hc, hok, hnone, hu, _, he⟩
    · exact Or.inl hs
    · exact Or.inr ⟨req, u, hc, hok, hnone, hu, he⟩
  · intro hwf
    rcases step_users s c now with hs | ⟨req, u, _, _, _, _, ha, _⟩
    · rw [hs]; exact hwf
    · rw [ha]
      exact (Map.keys_assignIn_nodup _ _ _ hwf).1
  · intro req hc hok
    subst hc
    exact signup_adds_account s req now hok
  · intro hno
    rcases step_users s c now with hs | ⟨req, _, hc, hok, _⟩
    · exact hs
    · exact absurd ⟨req, hc, hok⟩ hno

/-- C13 at a concrete input: the account `b@x.com` is there before and after the
successful signup of `a@x.com`, which adds the account of `a@x.com` as the one new entry;
a signup that fails, one tick after the expiry, leaves the store as it was. -/
theorem accounts_only_added_witness :
    (step ⟨⟨[("b@x.com", ⟨"b@x.com", "q", "B"⟩)]⟩,
        ⟨[("a@x.com", ⟨"000042", 600, true⟩)]⟩, none⟩
      (Call.signup (some [("email", "a@x.com "), ("password", "p"), ("name", "A")])) 7
      ).1.users_.find "b@x.com" = some ⟨"b@x.com", "q", "B"⟩ ∧
    (step ⟨⟨[("b@x.com", ⟨"b@x.com", "q", "B"⟩)]⟩,
        ⟨[("a@x.com", ⟨"000042", 600, true⟩)]⟩, none⟩
      (Call.signup (some [("email", "a@x.com "), ("password", "p"), ("name", "A")])) 7
      ).1.users_.WF ∧
    (∃ json, some [("email", "a@x.com "), ("password", "p"), ("name", "A")] = some json ∧
      (⟨⟨[("b@x.com", ⟨"b@x.com", "q", "B"⟩)]⟩,
        ⟨[("a@x.com", ⟨"000042", 600, true⟩)]⟩, none⟩ : State).users_.find
          (trim (asString json "email")) = none ∧
      (step ⟨⟨[("b@x.com", ⟨"b@x.com", "q", "B"⟩)]⟩,
          ⟨[("a@x.com", ⟨"000042", 600, true⟩)]⟩, none⟩
        (Call.signup (some [("email", "a@x.com "), ("password", "p"), ("name", "A")])) 7
        ).1.users_.find (trim (asString json "email")) =
          some ⟨trim (asString json "email"), asString json "password",
            trim (asString json "name")⟩ ∧
      (step ⟨⟨[("b@x.com", ⟨"b@x.com", "q", "B"⟩)]⟩,
          ⟨[("a@x.com", ⟨"000042", 600, true⟩)]⟩, none⟩
        (Call.signup (some [("email", "a@x.com "), ("password", "p"), ("name", "A")])) 7
        ).1.users_.entries =
        (⟨⟨[("b@x.com", ⟨"b@x.com", "q", "B"⟩)]⟩,
          ⟨[("a@x.com", ⟨"000042", 600, true⟩)]⟩, none⟩ : State).users_.entries ++
          [(trim (asString json "email"),
            ⟨trim (asString json "email"), asString json "password",
              trim (asString json "name")⟩)]) ∧
    (step ⟨⟨[("b@x.com", ⟨"b@x.com", "q", "B"⟩)]⟩,
        ⟨[("a@x.com", ⟨"000042", 600, true⟩)]⟩, none⟩
      (Call.signup (some [("email", "a@x.com "), ("password", "p"), ("name", "A")])) 7
      ).1.users_ =
      ⟨[("b@x.com", ⟨"b@x.com", "q", "B"⟩), ("a@x.com", ⟨"a@x.com", "p", "A"⟩)]⟩ ∧
    (step ⟨⟨[("b@x.com", ⟨"b@x.com", "q", "B"⟩)]⟩,
        ⟨[("a@x.com", ⟨"000042", 600, true⟩)]⟩, none⟩
      (Call.signup (some [("email", "a@x.com "), ("password", "p"), ("name", "A")])) 601
      ).1.users_ = ⟨[("b@x.com", ⟨"b@x.com", "q", "B"⟩)]⟩ :=
  ⟨(accounts_only_added ⟨⟨[("b@x.com", ⟨"b@x.com", "q", "B"⟩)]⟩,
        ⟨[("a@x.com", ⟨"000042", 600, true⟩)]⟩, none⟩
      (Call.signup (some [("email", "a@x.com "), ("password", "p"), ("name", "A")])) 7).1
      "b@x.com" ⟨"b@x.com", "q", "B"⟩ (by decide),
   (accounts_only_added ⟨⟨[("b@x.com", ⟨"b@x.com", "q", "B"⟩)]⟩,
        ⟨[("a@x.com", ⟨"000042", 600, true⟩)]⟩, none⟩
      (Call.signup (some [("email", "a@x.com "), ("password", "p"), ("name", "A")])) 7).2.2.1
      (by decide),
   (accounts_only_added ⟨⟨[("b@x.com", ⟨"b@x.com", "q", "B"⟩)]⟩,
        ⟨[("a@x.com", ⟨"000042", 600, true⟩)]⟩, none⟩
      (Call.signup (some [("email", "a@x.com "), ("password", "p"), ("name", "A")])) 7
      ).2.2.2.1 (some [("email", "a@x.com "), ("password", "p"), ("name", "A")]) rfl
      (by decide),
   by decide,
   (accounts_only_added ⟨⟨[("b@x.com", ⟨"b@x.com", "q", "B"⟩)]⟩,
        ⟨[("a@x.com", ⟨"000042", 600, true⟩)]⟩, none⟩
      (Call.signup (some [("email", "a@x.com "), ("password", "p"), ("name", "A")])) 601
      ).2.2.2.2 (by
        rintro ⟨req, hc, hok⟩
        injection hc with hreq
        subst hreq
        revert hok
        decide)⟩

/-! ## Claim C14: writing the user store and loading it again -/

theorem Map.findIn_none_of_not_mem {V : Type} (k : String) :
    ∀ l : List (String × V), k ∉ l.map Prod.fst → Map.findIn k l = none := by
  intro l
  induction l with
  | nil => intro _; rfl
  | cons p t ih =>
    obtain ⟨k', v'⟩ := p
    intro h
    have h2 : ¬ k = k' ∧ k ∉ t.map Prod.fst := by simpa using h
    simp only [Map.findIn, if_neg (Ne.symm h2.1)]
    exact ih h2.2

theorem Map.mem_assignIn {V : Type} (k : String) (v : V) :
    ∀ (l : List (String × V)) (entry : String × V),
      entry ∈ Map.assignIn k v l → entry = (k, v) ∨ entry ∈ l := by
  intro l
  induction l with
  | nil =>
    intro entry h
    left
    simpa [Map.assignIn] using h
  | cons p t ih =>
    obtain ⟨k', v'⟩ := p
    intro entry h
    by_cases hk : k' = k
    · simp only [Map.assignIn, if_pos hk, List.mem_cons] at h
      rcases h with h | h
      · exact Or.inl h
      · exact Or.inr (List.mem_cons_of_mem _ h)
    · simp only [Map.assignIn, if_neg hk, List.mem_cons] at h
      rcases h with h | h
      · right; rw [h]; exact List.mem_cons_self _ _
      · rcases ih entry h with h2 | h2
        · exact Or.inl h2
        · exact Or.inr (List.mem_cons_of_mem _ h2)

theorem KeysAreEmails.assign {m : Map User} (h : KeysAreEmails m) (u : User) :
    KeysAreEmails (m.assign u.email u) := by
  intro entry hmem
  rcases Map.mem_assignIn _ _ _ entry hmem with he | he
  · rw [he]
  · exact h entry he

/-- The loop of `loadDb` yields a store whose keys are the emails of its records, each key
once. -/
theorem loadDb_fold_invariant (root : List User) :
    ∀ m : Map User, KeysAreEmails m → m.WF →
      KeysAreEmails (root.foldl (fun m user => m.assign user.email user) m) ∧
      (root.foldl (fun m user => m.assign user.email user) m).WF := by
  induction root with
  | nil => intro m hk hw; exact ⟨hk, hw⟩
  | cons u t ih =>
    intro m hk hw
    simp only [List.foldl_cons]
    exact ih _ (hk.assign u) (Map.keys_assignIn_nodup _ _ _ hw).1

/-- Loading the records of an entry list whose keys are distinct and are the emails of the
records appends that list to the store, when the keys are new to the store. -/
theorem loadDb_fold_entries :
    ∀ (l e0 : List (String × User)),
      ((e0 ++ l).map Prod.fst).Nodup → (∀ entry ∈ l, entry.1 = entry.2.email) →
      (l.map Prod.snd).foldl (fun (m : Map User) (user : User) => m.assign user.email user)
        (⟨e0⟩ : Map User) = ⟨e0 ++ l⟩ := by
  intro l
  induction l with
  | nil => intro e0 _ _; simp
  | cons p t ih =>
    obtain ⟨k, u⟩ := p
    intro e0 hnd hkeys
    have hk : k = u.email := hkeys (k, u) (List.mem_cons_self _ _)
    have hnot : k ∉ e0.map Prod.fst := by
      intro hmem
      rw [List.map_append, List.nodup_append] at hnd
      exact hnd.2.2 hmem (by simp)
    have hassign : (⟨e0⟩ : Map User).assign u.email u = ⟨e0 ++ [(k, u)]⟩ := by
      rw [← hk]
      simp only [Map.assign]
      rw [Map.assignIn_absent k u e0 (Map.findIn_none_of_not_mem k e0 hnot)]
    simp only [List.map_cons, List.foldl_cons]
    rw [hassign, ih (e0 ++ [(k, u)]) (by simpa using hnd)
      (fun entry he => hkeys entry (List.mem_cons_of_mem _ he))]
    simp

/-- Writing the store as `signup` does, then `loadDb`, gives the store back. -/
theorem loadDb_written (s : State) (hwf : s.users_.WF) (hkeys : KeysAreEmails s.users_) :
    (loadDb { s with dbFile := some (s.users_.entries.map Prod.snd) }).users_ = s.users_ := by
  simp only [loadDb]
  have h := loadDb_fold_entries s.users_.entries [] (by simpa using hwf) hkeys
  simp only [List.nil_append] at h
  exact h

theorem step_keys_are_emails (s : State) (c : Call) (now : Nat)
    (hkeys : KeysAreEmails s.users_) : KeysAreEmails (step s c now).1.users_ := by
  rcases step_users s c now with hs | ⟨req, u, _, _, _, hu, ha, _⟩
  · rw [hs]; exact hkeys
  · rw [ha, ← hu]
    exact hkeys.assign u
/-- C14: with the file modelled as the list of (email, password, name) records that
`signup` writes, for every user store that holds each key once and whose keys are the
emails of their records, writing the whole store as `signup` does and then running
`loadDb` gives back the same store, so every lookup finds the same account with the same
fields; in particular `loadDb` after a successful `signup` reproduces the store that the
signup left. Such stores are the ones that arise: `loadDb` builds one from any file, and
every call keeps the property. -/
theorem store_round_trip (s : State) (hwf : s.users_.WF) (hkeys : KeysAreEmails s.users_) :
    (loadDb { s with dbFile := some (s.users_.entries.map Prod.snd) }).users_ = s.users_ ∧
    (∀ k, (loadDb { s with dbFile := some (s.users_.entries.map Prod.snd) }).users_.find k =
      s.users_.find k) ∧
    (∀ req now, (signup s req now).2.status = 200 →
      (signup s req now).1.dbFile = some ((signup s req now).1.users_.entries.map Prod.snd) ∧
      (loadDb (signup s req now).1).users_ = (signup s req now).1.users_) ∧
    (∀ c now, KeysAreEmails (step s c now).1.users_ ∧ (step s c now).1.users_.WF) ∧
    (∀ s2 : State, KeysAreEmails (loadDb s2).users_ ∧ (loadDb s2).users_.WF) := by
  have h1 := loadDb_written s hwf hkeys
  refine ⟨h1, fun k => by rw [h1], ?_, ?_, ?_⟩
  · intro req now hok
    obtain ⟨json, p, hreq, hme, hmp, hmn, he, hn, hp, hf, hv, hnow, hu⟩ :=
      signup_ok_inv s req now hok
    subst hreq
    have hfile : (signup s (some json) now).1.dbFile =
        some ((signup s (some json) now).1.users_.entries.map Prod.snd) := by
      rw [signup_registered s json now p hme hmp hmn he hn hp hf hv hnow hu]
    have hk2 : KeysAreEmails (signup s (some json) now).1.users_ :=
      step_keys_are_emails s (Call.signup (some json)) now hkeys
    have hw2 : (signup s (some json) now).1.users_.WF := by
      rcases step_users s (Call.signup (some json)) now with hs | ⟨_, u, _, _, _, _, ha, _⟩
      · have hs2 : (signup s (some json) now).1.users_ = s.users_ := hs
        rw [hs2]; exact hwf
      · have ha2 : (signup s (some json) now).1.users_ = s.users_.assign _ u := ha
        rw [ha2]
        exact (Map.keys_assignIn_nodup _ _ _ hwf).1
    refine ⟨hfile, ?_⟩
    have h2 := loadDb_written (signup s (some json) now).1 hw2 hk2
    rw [← hfile] at h2
    exact h2
  · intro c now
    refine ⟨step_keys_are_emails s c now hkeys, ?_⟩
    rcases step_users s c now with hs | ⟨_, u, _, _, _, _, ha, _⟩
    · rw [hs]; exact hwf
    · rw [ha]
      exact (Map.keys_assignIn_nodup _ _ _ hwf).1
  · intro s2
    unfold loadDb
    cases s2.dbFile with
    | none =>
      exact ⟨fun entry h => by simp [Map.empty] at h, by simp [Map.WF, Map.keys, Map.empty]⟩
    | some root =>
      exact loadDb_fold_invariant root Map.empty
        (fun entry h => by simp [Map.empty] at h) (by simp [Map.WF, Map.keys, Map.empty])

/-- C14 at a concrete input: a store of two accounts is written and loaded again, over a
stale in-memory store. -/
theorem store_round_trip_witness :
    (loadDb
      { (⟨⟨[("b@x.com", ⟨"b@x.com", "q", "B"⟩), ("a@x.com", ⟨"a@x.com", "p", "A"⟩)]⟩,
          ⟨[]⟩, none⟩ : State) with
        dbFile := some ((⟨⟨[("b@x.com", ⟨"b@x.com", "q", "B"⟩),
          ("a@x.com", ⟨"a@x.com", "p", "A"⟩)]⟩, ⟨[]⟩, none⟩ : State).users_.entries.map
            Prod.snd) }).users_ =
      (⟨⟨[("b@x.com", ⟨"b@x.com", "q", "B"⟩), ("a@x.com", ⟨"a@x.com", "p", "A"⟩)]⟩,
          ⟨[]⟩, none⟩ : State).users_ ∧
    (loadDb ⟨⟨[("z", ⟨"z", "z", "Z"⟩)]⟩, ⟨[]⟩,
        some [⟨"b@x.com", "q", "B"⟩, ⟨"a@x.com", "p", "A"⟩]⟩).users_ =
      ⟨[("b@x.com", ⟨"b@x.com", "q", "B"⟩), ("a@x.com", ⟨"a@x.com", "p", "A"⟩)]⟩ :=
  ⟨(store_round_trip
      ⟨⟨[("b@x.com", ⟨"b@x.com", "q", "B"⟩), ("a@x.com", ⟨"a@x.com", "p", "A"⟩)]⟩,
        ⟨[]⟩, none⟩
      (by decide)
      (by
        intro entry h
        simp only [List.mem_cons, List.mem_singleton, List.not_mem_nil, or_false] at h
        rcases h with h | h <;> rw [h])).1,
   by decide⟩
/-! ## Claim C15: the shape of a generated code -/

theorem digitChar_value (n : Nat) :
    (Nat.digitChar (n % 10)).toNat - 48 = n % 10 ∧ (Nat.digitChar (n % 10)).isDigit = true := by
  have h : n % 10 < 10 := Nat.mod_lt n (by decide)
  interval_cases n % 10 <;> decide

theorem toDigitsCore_isDigit :
    ∀ (fuel n : Nat) (acc : List Char), (∀ c ∈ acc, c.isDigit = true) →
      ∀ c ∈ Nat.toDigitsCore 10 fuel n acc, c.isDigit = true := by
  intro fuel
  induction fuel with
  | zero => intro n acc hacc c hc; exact hacc c (by simpa [Nat.toDigitsCore] using hc)
  | succ f ih =>
    intro n acc hacc c hc
    have hacc2 : ∀ d ∈ Nat.digitChar (n % 10) :: acc, d.isDigit = true := by
      intro d hd
      rcases List.mem_cons.1 hd with rfl | hd
      · exact (digitChar_value n).2
      · exact hacc d hd
    unfold Nat.toDigitsCore at hc
    by_cases hz : n / 10 = 0
    · simp only [hz, if_true] at hc
      exact hacc2 c hc
    · simp only [hz, if_false] at hc
      exact ih (n / 10) _ hacc2 c hc

theorem decimalValue_toDigitsCore :
    ∀ (fuel n : Nat) (acc : List Char), n < fuel →
      decimalValue (Nat.toDigitsCore 10 fuel n acc) = n * 10 ^ acc.length + decimalValue acc := by
  intro fuel
  induction fuel with
  | zero => intro n acc h; exact absurd h (Nat.not_lt_zero n)
  | succ f ih =>
    intro n acc hn
    unfold Nat.toDigitsCore
    have hd := (digitChar_value n).1
    by_cases hz : n / 10 = 0
    · simp only [hz, if_true, decimalValue, hd]
      have hlt : n < 10 := by omega
      rw [Nat.mod_eq_of_lt hlt]
    · simp only [hz, if_false]
      have hlt : n / 10 < f := by omega
      rw [ih (n / 10) _ hlt]
      simp only [decimalValue, hd, List.length_cons, pow_succ]
      have hsplit : n = 10 * (n / 10) + n % 10 := (Nat.div_add_mod n 10).symm
      generalize 10 ^ acc.length = P
      generalize decimalValue acc = D
      generalize n / 10 = q at hsplit
      generalize n % 10 = r at hsplit
      subst hsplit
      ring

theorem decimalValue_zero_padding (k : Nat) (l : List Char) :
    decimalValue (List.replicate k '0' ++ l) = decimalValue l := by
  induction k with
  | zero => rfl
  | succ k ih =>
    have hz : '0'.toNat - 48 = 0 := by decide
    have hstep : decimalValue (List.replicate (k + 1) '0' ++ l) =
        ('0'.toNat - 48) * 10 ^ (List.replicate k '0' ++ l).length +
          decimalValue (List.replicate k '0' ++ l) := rfl
    rw [hstep, ih, hz]
    simp

theorem decimalValue_setw6fill0 (value : Nat) : decimalValue (setw6fill0 value) = value := by
  unfold setw6fill0
  simp only
  rw [decimalValue_zero_padding]
  unfold Nat.toDigits
  rw [decimalValue_toDigitsCore (value + 1) value [] (Nat.lt_succ_self value)]
  simp [decimalValue]

theorem setw6fill0_length_eq (value : Nat) (h : value ≤ 999999) :
    (setw6fill0 value).length = 6 := by
  have hlen : (Nat.toDigits 10 value).length ≤ 6 :=
    Nat.toDigitsCore_length 10 (by decide) (value + 1) value 6 (by omega) (by decide)
  unfold setw6fill0
  simp only [List.length_append, List.length_replicate]
  omega

/-- C15: for every value `v` with `0 ≤ v ≤ 999999`, the rendered verification code has
exactly 6 characters, each an ASCII digit, is the decimal rendering of `v` padded on the
left with `'0'`, and denotes `v` in base ten; hence two such values with the same code are
equal, and `trim` leaves the code as it is. -/
theorem generated_code_shape (v : Nat) (hv : v ≤ 999999) :
    (generateVerificationCode v).data.length = 6 ∧
    (∀ c ∈ (generateVerificationCode v).data, c.isDigit = true) ∧
    (generateVerificationCode v).data =
      List.replicate (6 - (Nat.repr v).data.length) '0' ++ (Nat.repr v).data ∧
    decimalValue (generateVerificationCode v).data = v ∧
    (∀ w, w ≤ 999999 → generateVerificationCode v = generateVerificationCode w → v = w) ∧
    trim (generateVerificationCode v) = generateVerificationCode v := by
  refine ⟨setw6fill0_length_eq v hv, ?_, rfl, decimalValue_setw6fill0 v, ?_,
    trim_generateVerificationCode v⟩
  · intro c hc
    have hc2 : c ∈ setw6fill0 v := hc
    unfold setw6fill0 at hc2
    rcases List.mem_append.1 hc2 with h | h
    · have := (List.mem_replicate.1 h).2
      subst this
      decide
    · exact toDigitsCore_isDigit _ _ [] (by simp) c h
  · intro w _ hw
    have h1 := decimalValue_setw6fill0 v
    have h2 := decimalValue_setw6fill0 w
    have hd : setw6fill0 v = setw6fill0 w := congrArg String.data hw
    rw [hd] at h1
    rw [← h1, h2]

/-- C15 at concrete inputs: the codes of 42, 0 and 999999. -/
theorem generated_code_shape_witness :
    generateVerificationCode 42 = "000042" ∧
    generateVerificationCode 0 = "000000" ∧
    generateVerificationCode 999999 = "999999" ∧
    (generateVerificationCode 42).data.length = 6 ∧
    decimalValue (generateVerificationCode 42).data = 42 :=
  ⟨by decide, by decide, by decide,
   (generated_code_shape 42 (by decide)).1,
   (generated_code_shape 42 (by decide)).2.2.2.1⟩
/-! ## Claim C16: what `trim` keeps -/

theorem find_first_not_of_cons (chars : List Char) (c : Char) (cs : List Char) :
    find_first_not_of chars (c :: cs) =
      if chars.contains c then (find_first_not_of chars cs).map (· + 1) else some 0 := rfl

theorem find_last_not_of_cons (chars : List Char) (c : Char) (cs : List Char) :
    find_last_not_of chars (c :: cs) =
      match find_last_not_of chars cs with
      | some i => some (i + 1)
      | none => if chars.contains c then none else some 0 := rfl

theorem find_first_not_of_all (chars : List Char) :
    ∀ s : List Char, (∀ c ∈ s, chars.contains c = true) → find_first_not_of chars s = none := by
  intro s
  induction s with
  | nil => intro _; rfl
  | cons c cs ih =>
    intro h
    unfold find_first_not_of
    rw [if_pos (h c (List.mem_cons_self _ _)), ih (fun d hd => h d (List.mem_cons_of_mem _ hd))]
    rfl

theorem find_last_not_of_all (chars : List Char) :
    ∀ s : List Char, (∀ c ∈ s, chars.contains c = true) → find_last_not_of chars s = none := by
  intro s
  induction s with
  | nil => intro _; rfl
  | cons c cs ih =>
    intro h
    unfold find_last_not_of
    rw [ih (fun d hd => h d (List.mem_cons_of_mem _ hd))]
    simp only
    rw [if_pos (h c (List.mem_cons_self _ _))]

theorem find_first_not_of_skip (chars : List Char) (a : Char) (t : List Char)
    (ha : chars.contains a = false) :
    ∀ p : List Char, (∀ c ∈ p, chars.contains c = true) →
      find_first_not_of chars (p ++ a :: t) = some p.length := by
  intro p
  induction p with
  | nil => intro _; exact find_first_not_of_clean chars a t ha
  | cons c cs ih =>
    intro h
    rw [List.cons_append, find_first_not_of_cons, if_pos (h c (List.mem_cons_self _ _)),
      ih (fun d hd => h d (List.mem_cons_of_mem _ hd))]
    rfl

theorem find_last_not_of_skip (chars : List Char) (b : Char) (q : List Char)
    (hb : chars.contains b = false) (hq : ∀ c ∈ q, chars.contains c = true) :
    ∀ l : List Char, find_last_not_of chars (l ++ b :: q) = some l.length := by
  intro l
  induction l with
  | nil =>
    rw [List.nil_append, find_last_not_of_cons, find_last_not_of_all chars q hq]
    simp only [hb]
    rfl
  | cons c cs ih =>
    rw [List.cons_append, find_last_not_of_cons, ih]
    rfl

/-- Every string is whitespace only, or a run of whitespace, a part that begins and ends
with other characters, and a run of whitespace. -/
theorem whitespace_split (chars : List Char) :
    ∀ s : List Char, (∀ c ∈ s, chars.contains c = true) ∨
      ∃ p a init b q, s = p ++ (init ++ [b]) ++ q ∧
        (∀ c ∈ p, chars.contains c = true) ∧ (∀ c ∈ q, chars.contains c = true) ∧
        chars.contains b = false ∧ (init ++ [b]).head? = some a ∧ chars.contains a = false := by
  intro s
  induction s with
  | nil => left; intro c hc; simp at hc
  | cons c cs ih =>
    by_cases hc : chars.contains c = true
    · rcases ih with hall | ⟨p, a, init, b, q, hs, hp, hq, hb, hhead, ha⟩
      · left
        intro d hd
        rcases List.mem_cons.1 hd with rfl | hd
        · exact hc
        · exact hall d hd
      · right
        refine ⟨c :: p, a, init, b, q, by rw [hs]; simp, ?_, hq, hb, hhead, ha⟩
        intro d hd
        rcases List.mem_cons.1 hd with rfl | hd
        · exact hc
        · exact hp d hd
    · have hc2 : chars.contains c = false := by simpa using hc
      rcases ih with hall | ⟨p, a, init, b, q, hs, hp, hq, hb, hhead, ha⟩
      · right
        exact ⟨[], c, [], c, cs, by simp, by simp, hall, hc2, rfl, hc2⟩
      · right
        exact ⟨[], c, c :: (p ++ init), b, q, by rw [hs]; simp, by simp, hq, hb, rfl, hc2⟩

/-- On a whitespace-only string `trim` gives the empty string. -/
theorem trim_all_whitespace (s : String) (h : ∀ c ∈ s.data, whitespace.contains c = true) :
    trim s = "" := by
  unfold trim
  rw [find_first_not_of_all whitespace s.data h]

/-- The part between the whitespace runs is what `trim` gives. -/
theorem trim_split (s : String) (p init q : List Char) (a b : Char)
    (hs : s.data = p ++ (init ++ [b]) ++ q)
    (hp : ∀ c ∈ p, whitespace.contains c = true)
    (hq : ∀ c ∈ q, whitespace.contains c = true)
    (hb : whitespace.contains b = false)
    (hhead : (init ++ [b]).head? = some a) (ha : whitespace.contains a = false) :
    trim s = ⟨init ++ [b]⟩ := by
  have hfirst : find_first_not_of whitespace s.data = some p.length := by
    cases init with
    | nil =>
      simp only [List.nil_append, List.head?_cons, Option.some.injEq] at hhead
      subst hhead
      rw [hs]
      simp only [List.nil_append, List.append_assoc, List.singleton_append]
      exact find_first_not_of_skip whitespace b q hb p hp
    | cons x xs =>
      simp only [List.cons_append, List.head?_cons, Option.some.injEq] at hhead
      subst hhead
      rw [hs]
      simp only [List.cons_append, List.append_assoc]
      exact find_first_not_of_skip whitespace x _ ha p hp
  have hlast : find_last_not_of whitespace s.data = some (p ++ init).length := by
    rw [hs]
    have := find_last_not_of_skip whitespace b q hb hq (p ++ init)
    simpa using this
  unfold trim
  rw [hfirst, hlast]
  apply String.ext
  simp only [substr, hs, List.length_append]
  have hn : p.length + init.length - p.length + 1 = (init ++ [b]).length := by
    simp
  rw [hn, List.append_assoc, List.drop_left, List.take_left]
/-- C16: for every string `s`, with whitespace the four characters space, CR, LF and tab:
`s` is `p ++ trim s ++ q` with `p` and `q` whitespace only, so what lies between the
ends of `trim s`, interior whitespace included, is kept; `trim s` is empty or begins and
ends with a character that is not whitespace; `trim s` is empty exactly when `s` is empty
or whitespace only; and `trim (trim s) = trim s`. -/
theorem trim_spec (s : String) :
    whitespace = [' ', '\r', '\n', '\t'] ∧
    (∃ p q : String, s = p ++ trim s ++ q ∧
      (∀ c ∈ p.data, c ∈ whitespace) ∧ (∀ c ∈ q.data, c ∈ whitespace)) ∧
    (trim s = "" ∨
      ∃ a b, (trim s).data.head? = some a ∧ (trim s).data.getLast? = some b ∧
        a ∉ whitespace ∧ b ∉ whitespace) ∧
    (trim s = "" ↔ s = "" ∨ ∀ c ∈ s.data, c ∈ whitespace) ∧
    trim (trim s) = trim s := by
  refine ⟨rfl, ?_⟩
  rcases whitespace_split whitespace s.data with hall | ⟨p, a, init, b, q, hs, hp, hq, hb, hh, ha⟩
  · have ht := trim_all_whitespace s hall
    rw [ht]
    refine ⟨⟨s, "", ?_, ?_, ?_⟩, Or.inl rfl, ?_, by decide⟩
    · apply String.ext
      simp [String.data_append]
    · intro c hc
      simpa using hall c hc
    · intro c hc
      simp at hc
    · constructor
      · intro _
        right
        intro c hc
        simpa using hall c hc
      · intro _
        rfl
  · have ht := trim_split s p init q a b hs hp hq hb hh ha
    have hne : (⟨init ++ [b]⟩ : String) ≠ "" := by
      intro h
      have h2 := congrArg String.data h
      simp at h2
    rw [ht]
    refine ⟨⟨⟨p⟩, ⟨q⟩, ?_, ?_, ?_⟩, Or.inr ⟨a, b, hh, by simp, ?_, ?_⟩, ?_, ?_⟩
    · apply String.ext
      simp only [String.data_append, hs]
    · intro c hc
      simpa using hp c hc
    · intro c hc
      simpa using hq c hc
    · simpa using ha
    · simpa using hb
    · constructor
      · intro h
        exact absurd h hne
      · rintro (h | h)
        · rw [h] at hs
          have h2 := congrArg List.length hs
          simp at h2
          omega
        · have hbmem : b ∈ s.data := by rw [hs]; simp
          have := h b hbmem
          have hb2 : b ∉ whitespace := by simpa using hb
          exact absurd this hb2
    · exact trim_split ⟨init ++ [b]⟩ [] init [] a b (by simp) (by simp) (by simp) hb hh ha

/-- C16 at concrete inputs: the email of section 8, interior whitespace, whitespace only. -/
theorem trim_spec_witness :
    trim "a@x.com " = "a@x.com" ∧
    trim " \t a b \r\n" = "a b" ∧
    trim " \r\n\t" = "" ∧
    trim (trim " \t a b \r\n") = trim " \t a b \r\n" :=
  ⟨by decide, by decide, by decide, (trim_spec " \t a b \r\n").2.2.2.2⟩
/-! ## Claim C17: a rejected signup changes nothing -/

/-- The four outcomes of `signup`: three rejections, each leaving the state as it was, and
the answer 200. -/
theorem signup_outcome (s : State) (req : Request) (now : Nat) :
    signup s req now = (s, errorResponse 400 "name, email and password required") ∨
    signup s req now = (s, errorResponse 400 "email must be verified before signup") ∨
    (signup s req now = (s, errorResponse 409 "user already exists") ∧
      ∃ p u, s.pendingVerifications_.find (emailOf req) = some p ∧
        s.users_.find (emailOf req) = some u) ∨
    (signup s req now).2.status = 200 := by
  cases req with
  | none => left; rfl
  | some json =>
    by_cases hme : isMember json "email" = true
    · by_cases hmp : isMember json "password" = true
      · by_cases hmn : isMember json "name" = true
        · by_cases he : trim (asString json "email") = ""
          · left; exact signup_empty_field s json now (Or.inl he)
          · by_cases hn : trim (asString json "name") = ""
            · left; exact signup_empty_field s json now (Or.inr (Or.inl hn))
            · by_cases hp : asString json "password" = ""
              · left; exact signup_empty_field s json now (Or.inr (Or.inr hp))
              · cases hf : s.pendingVerifications_.find (trim (asString json "email")) with
                | none =>
                  right; left
                  exact signup_not_pending s json now hme hmp hmn he hn hp hf
                | some p =>
                  by_cases hv : p.verified = true
                  · by_cases hnow : now > p.expiresAt
                    · right; left
                      exact signup_not_verified s json now p hme hmp hmn he hn hp hf
                        (Or.inr hnow)
                    · have hle : now ≤ p.expiresAt := Nat.not_lt.1 hnow
                      cases hu : s.users_.find (trim (asString json "email")) with
                      | some u =>
                        right; right; left
                        exact ⟨signup_conflict s json now p u hme hmp hmn he hn hp hf hv hle hu,
                          p, u, hf, hu⟩
                      | none =>
                        right; right; right
                        rw [signup_registered s json now p hme hmp hmn he hn hp hf hv hle hu]
                        rfl
                  · have hv2 : p.verified = false := by simpa using hv
                    right; left
                    exact signup_not_verified s json now p hme hmp hmn he hn hp hf (Or.inl hv2)
        · left; simp [signup, hme, hmp, hmn]
      · left; simp [signup, hme, hmp]
    · left; simp [signup, hme]

/-- C17: every signup that is rejected, whatever the reason (missing or empty fields, no
pending record, record not verified, record expired, account already there), leaves the
user store, the verification registry and the file exactly as they were; in particular a
verified record that has expired is still in the registry after the signup that it made
fail, and a signup removes a pending record only when it succeeds, and then only the
record of its own email. -/
theorem rejected_signup_changes_nothing (s : State) (req : Request) (now : Nat) :
    ((signup s req now).2.status = 200 ∨
      (signup s req now).2 = errorResponse 400 "name, email and password required" ∨
      (signup s req now).2 = errorResponse 400 "email must be verified before signup" ∨
      (signup s req now).2 = errorResponse 409 "user already exists") ∧
    ((signup s req now).2.status ≠ 200 → (signup s req now).1 = s) ∧
    (∀ p, s.pendingVerifications_.find (emailOf req) = some p → now > p.expiresAt →
      (signup s req now).2.status ≠ 200 ∧
      (signup s req now).1.pendingVerifications_.find (emailOf req) = some p) ∧
    (∀ k p, s.pendingVerifications_.find k = some p →
      (signup s req now).1.pendingVerifications_.find k = none →
      (signup s req now).2.status = 200 ∧ k = emailOf req) := by
  refine ⟨?_, signup_failed_state s req now, ?_, ?_⟩
  · rcases signup_outcome s req now with h | h | h | h
    · right; left; rw [h]
    · right; right; left; rw [h]
    · right; right; right; rw [h.1]
    · left; exact h
  · intro p hf hnow
    have hne : (signup s req now).2.status ≠ 200 := by
      intro hok
      rcases signup_cases s req now with ⟨_, hn⟩ | ⟨p2, hf2, _, hle, _⟩
      · exact hn hok
      · rw [hf] at hf2
        injection hf2 with hpp
        subst hpp
        omega
    refine ⟨hne, ?_⟩
    rw [signup_failed_state s req now hne]
    exact hf
  · intro k p hk hnone
    rcases signup_cases s req now with ⟨hs, _⟩ | ⟨_, _, _, _, _, _, _, hpend, hok⟩
    · rw [hs, hk] at hnone
      simp at hnone
    · refine ⟨hok, ?_⟩
      by_contra hne
      rw [hpend, Map.find_erase_ne _ _ _ hne, hk] at hnone
      simp at hnone

/-- C17 at a concrete input: the record of `a@x.com` is verified but expired at time 601;
the signup is rejected and the state is as before. -/
theorem rejected_signup_changes_nothing_witness :
    signup ⟨⟨[]⟩, ⟨[("a@x.com", ⟨"000042", 600, true⟩)]⟩, none⟩
      (some [("email", "a@x.com"), ("password", "p"), ("name", "A")]) 601 =
      (⟨⟨[]⟩, ⟨[("a@x.com", ⟨"000042", 600, true⟩)]⟩, none⟩,
        errorResponse 400 "email must be verified before signup") ∧
    (signup ⟨⟨[]⟩, ⟨[("a@x.com", ⟨"000042", 600, true⟩)]⟩, none⟩
      (some [("email", "a@x.com"), ("password", "p"), ("name", "A")]) 601).1 =
      ⟨⟨[]⟩, ⟨[("a@x.com", ⟨"000042", 600, true⟩)]⟩, none⟩ :=
  ⟨by decide,
   (rejected_signup_changes_nothing ⟨⟨[]⟩, ⟨[("a@x.com", ⟨"000042", 600, true⟩)]⟩, none⟩
      (some [("email", "a@x.com"), ("password", "p"), ("name", "A")]) 601).2.1 (by decide)⟩
/-! ## Claim C18: no email has both an account and a pending record -/

/-- One call keeps the two stores disjoint. -/
theorem step_disjoint (s : State) (c : Call) (now : Nat)
    (h : ∀ e, s.users_.find e = none ∨ s.pendingVerifications_.find e = none) :
    ∀ e, (step s c now).1.users_.find e = none ∨
      (step s c now).1.pendingVerifications_.find e = none := by
  intro e
  cases c with
  | requestVerification req value mailOk =>
    simp only [step]
    rcases requestVerification_cases s req value mailOk now with ⟨hs, _⟩ | ⟨_, _, hu, hr⟩
    · rw [hs]; exact h e
    · rw [hr]
      by_cases he : e = emailOf req
      · left; rw [he]; exact hu
      · rcases h e with h1 | h1
        · left; exact h1
        · right
          simp only
          rw [Map.find_assign_ne _ _ _ _ he]
          exact h1
  | verifyCode req =>
    simp only [step]
    rcases verifyCode_cases s req now with ⟨hs, _⟩ | ⟨p, _, _, hr⟩ | ⟨p, hf, _, _, _, _, hr⟩
    · rw [hs]; exact h e
    · rw [hr]
      by_cases he : e = emailOf req
      · right; rw [he]; exact Map.find_erase_self _ _
      · rcases h e with h1 | h1
        · left; exact h1
        · right
          simp only
          rw [Map.find_erase_ne _ _ _ he]
          exact h1
    · rw [hr]
      by_cases he : e = emailOf req
      · left
        rcases h (emailOf req) with h1 | h1
        · rw [he]; exact h1
        · rw [hf] at h1
          simp at h1
      · rcases h e with h1 | h1
        · left; exact h1
        · right
          simp only
          rw [Map.find_assign_ne _ _ _ _ he]
          exact h1
  | signup req =>
    rcases step_users s (Call.signup req) now with hs | ⟨req2, u, hc, hok, _, _, ha, _⟩
    · by_cases hok : (signup s req now).2.status = 200
      · rcases signup_cases s req now with ⟨_, hn⟩ | ⟨_, _, _, _, hu, _, hne, _, _⟩
        · exact absurd hok hn
        · have hs2 : (signup s req now).1.users_ = s.users_ := hs
          rw [hs2] at hne
          exact absurd hu hne
      · simp only [step]
        rw [signup_failed_state s req now hok]
        exact h e
    · injection hc with hreq
      subst hreq
      rcases signup_cases s req now with ⟨_, hn⟩ | ⟨_, _, _, _, _, _, _, hpend, _⟩
      · exact absurd hok hn
      · by_cases he : e = emailOf req
        · right
          simp only [step]
          rw [hpend, he]
          exact Map.find_erase_self _ _
        · rcases h e with h1 | h1
          · left
            rw [ha, Map.find_assign_ne _ _ _ _ he]
            exact h1
          · right
            simp only [step]
            rw [hpend, Map.find_erase_ne _ _ _ he]
            exact h1
  | login req =>
    simp only [step]
    rw [login_state]
    exact h e

theorem run_disjoint (calls : List (Call × Nat)) :
    ∀ s : State, (∀ e, s.users_.find e = none ∨ s.pendingVerifications_.find e = none) →
      ∀ e, (run s calls).users_.find e = none ∨
        (run s calls).pendingVerifications_.find e = none := by
  induction calls with
  | nil => intro s h; exact h
  | cons x t ih =>
    intro s h
    obtain ⟨c, now⟩ := x
    simp only [run]
    exact ih _ (step_disjoint s c now h)

/-- C18: start from any user store and an empty registry and run any sequence of the four
calls, each an atomic step. In the state reached no email has both an account and a pending
record, and no `signup` made in that state is answered 409 "user already exists". -/
theorem stores_stay_disjoint (s0 : State) (h0 : s0.pendingVerifications_ = Map.empty)
    (calls : List (Call × Nat)) :
    (∀ e, (run s0 calls).users_.find e = none ∨
      (run s0 calls).pendingVerifications_.find e = none) ∧
    (∀ req now, (signup (run s0 calls) req now).2.status ≠ 409 ∧
      (signup (run s0 calls) req now).2 ≠ errorResponse 409 "user already exists") := by
  have hd := run_disjoint calls s0 (fun e => Or.inr (by rw [h0]; rfl))
  refine ⟨hd, ?_⟩
  intro req now
  rcases signup_outcome (run s0 calls) req now with h | h | ⟨_, p, u, hp, hu⟩ | h
  · rw [h]
    exact ⟨by simp, fun h2 => absurd (congrArg Response.status h2) (by simp)⟩
  · rw [h]
    exact ⟨by simp, fun h2 => absurd (congrArg Response.status h2) (by simp)⟩
  · rcases hd (emailOf req) with h1 | h1
    · rw [hu] at h1; simp at h1
    · rw [hp] at h1; simp at h1
  · constructor
    · rw [h]; decide
    · intro h2
      rw [h2] at h
      simp at h

/-- C18 at a concrete run: `b@x.com` has an account from the start; its request is refused,
`a@x.com` is verified and signs up, and signs up again. -/
theorem stores_stay_disjoint_witness :
    (⟨⟨[("b@x.com", ⟨"b@x.com", "q", "B"⟩)]⟩, ⟨[]⟩, none⟩ : State).pendingVerifications_ =
      Map.empty ∧
    ∀ e,
      (run ⟨⟨[("b@x.com", ⟨"b@x.com", "q", "B"⟩)]⟩, ⟨[]⟩, none⟩
        [(Call.requestVerification (some [("email", "b@x.com")]) 1 true, 0),
         (Call.requestVerification (some [("email", "a@x.com")]) 42 true, 1),
         (Call.verifyCode (some [("email", "a@x.com"), ("code", "000042")]), 5),
         (Call.signup (some [("email", "a@x.com"), ("password", "p"), ("name", "A")]), 7)]
        ).users_.find e = none ∨
      (run ⟨⟨[("b@x.com", ⟨"b@x.com", "q", "B"⟩)]⟩, ⟨[]⟩, none⟩
        [(Call.requestVerification (some [("email", "b@x.com")]) 1 true, 0),
         (Call.requestVerification (some [("email", "a@x.com")]) 42 true, 1),
         (Call.verifyCode (some [("email", "a@x.com"), ("code", "000042")]), 5),
         (Call.signup (some [("email", "a@x.com"), ("password", "p"), ("name", "A")]), 7)]
        ).pendingVerifications_.find e = none :=
  ⟨rfl,
   (stores_stay_disjoint ⟨⟨[("b@x.com", ⟨"b@x.com", "q", "B"⟩)]⟩, ⟨[]⟩, none⟩ rfl
      [(Call.requestVerification (some [("email", "b@x.com")]) 1 true, 0),
       (Call.requestVerification (some [("email", "a@x.com")]) 42 true, 1),
       (Call.verifyCode (some [("email", "a@x.com"), ("code", "000042")]), 5),
       (Call.signup (some [("email", "a@x.com"), ("password", "p"), ("name", "A")]), 7)]).1⟩
/-! ## Claim C19: logging in after signing up -/

theorem trim_idem (s : String) : trim (trim s) = trim s := by
  rcases whitespace_split whitespace s.data with hall | ⟨p, a, init, b, q, hs, hp, hq, hb, hh, ha⟩
  · rw [trim_all_whitespace s hall]
    decide
  · rw [trim_split s p init q a b hs hp hq hb hh ha]
    exact trim_split ⟨init ++ [b]⟩ [] init [] a b (by simp) (by simp) (by simp) hb hh ha

theorem trim_emailOf (req : Request) : trim (emailOf req) = emailOf req := by
  cases req with
  | none => decide
  | some json => exact trim_idem _

/-- A key that `trim` would change is never given an account. -/
theorem run_keeps_untrimmed_absent (k : String) (hk : trim k ≠ k) (calls : List (Call × Nat)) :
    ∀ s : State, s.users_.find k = none → (run s calls).users_.find k = none := by
  induction calls with
  | nil => intro s h; exact h
  | cons x t ih =>
    intro s h
    obtain ⟨c, now⟩ := x
    simp only [run]
    apply ih
    rcases step_users s c now with hs | ⟨req, u, _, _, _, _, ha, _⟩
    · rw [hs]; exact h
    · have hne : k ≠ emailOf req := by
        intro heq
        apply hk
        rw [heq]
        exact trim_emailOf req
      rw [ha, Map.find_assign_ne _ _ _ _ hne]
      exact h

/-- C19: after a signup that succeeded, and after any further calls, a login with the
trimmed email and the same password string succeeds and returns the token, name and email
that the signup returned; whereas when the email of the signup carried leading or trailing
whitespace, so that trimming changes it, and no account is keyed by that raw string, a
login with the raw email is rejected with 401 "invalid credentials", whatever the
password. -/
theorem login_after_signup (s : State) (json : JsonObject) (now : Nat)
    (hok : (signup s (some json) now).2.status = 200) :
    (∀ (calls : List (Call × Nat)) (ljson : JsonObject),
      isMember ljson "email" = true → isMember ljson "password" = true →
      asString ljson "email" = trim (asString json "email") →
      asString ljson "password" = asString json "password" →
      (login (run (signup s (some json) now).1 calls) (some ljson)).2 =
        (signup s (some json) now).2) ∧
    (trim (asString json "email") ≠ asString json "email" →
      s.users_.find (asString json "email") = none →
      ∀ (calls : List (Call × Nat)) (ljson : JsonObject),
        isMember ljson "email" = true → isMember ljson "password" = true →
        asString ljson "email" = asString json "email" →
        (login (run (signup s (some json) now).1 calls) (some ljson)).2 =
          errorResponse 401 "invalid credentials") := by
  obtain ⟨json2, p, hreq, hme, hmp, hmn, he, hn, hp, hf, hv, hnow, hu⟩ :=
    signup_ok_inv s (some json) now hok
  injection hreq with hreq
  subst hreq
  have hreg := signup_registered s json now p hme hmp hmn he hn hp hf hv hnow hu
  constructor
  · intro calls ljson hlme hlmp hlemail hlpw
    have hfound : (run (signup s (some json) now).1 calls).users_.find
        (asString ljson "email") =
        some ⟨trim (asString json "email"), asString json "password",
          trim (asString json "name")⟩ := by
      apply run_keeps_account
      rw [hreg, hlemail]
      exact Map.find_assign_self _ _ _
    rw [login_found _ ljson _ hlme hlmp hfound hlpw.symm, hreg, hlemail]
  · intro hraw hnone calls ljson hlme hlmp hlemail
    have habsent : (run (signup s (some json) now).1 calls).users_.find
        (asString ljson "email") = none := by
      rw [hlemail]
      apply run_keeps_untrimmed_absent _ hraw
      rw [hreg]
      simp only
      rw [Map.find_assign_ne _ _ _ _ (Ne.symm hraw)]
      exact hnone
    rw [login_rejected _ ljson hlme hlmp (by
      rintro ⟨u, hfu, _⟩
      rw [habsent] at hfu
      simp at hfu)]

/-- C19 at a concrete input: the signup for `" a@x.com"`, then the login with `a@x.com` and
the login with `" a@x.com"`. -/
theorem login_after_signup_witness :
    (signup ⟨⟨[]⟩, ⟨[("a@x.com", ⟨"000042", 600, true⟩)]⟩, none⟩
      (some [("email", " a@x.com"), ("password", "p"), ("name", "A")]) 7).2.status = 200 ∧
    (login
      (run (signup ⟨⟨[]⟩, ⟨[("a@x.com", ⟨"000042", 600, true⟩)]⟩, none⟩
        (some [("email", " a@x.com"), ("password", "p"), ("name", "A")]) 7).1 [])
      (some [("email", "a@x.com"), ("password", "p")])).2 =
      (signup ⟨⟨[]⟩, ⟨[("a@x.com", ⟨"000042", 600, true⟩)]⟩, none⟩
        (some [("email", " a@x.com"), ("password", "p"), ("name", "A")]) 7).2 ∧
    (login
      (run (signup ⟨⟨[]⟩, ⟨[("a@x.com", ⟨"000042", 600, true⟩)]⟩, none⟩
        (some [("email", " a@x.com"), ("password", "p"), ("name", "A")]) 7).1 [])
      (some [("email", " a@x.com"), ("password", "p")])).2 =
      errorResponse 401 "invalid credentials" :=
  ⟨by decide,
   (login_after_signup ⟨⟨[]⟩, ⟨[("a@x.com", ⟨"000042", 600, true⟩)]⟩, none⟩
      [("email", " a@x.com"), ("password", "p"), ("name", "A")] 7 (by decide)).1 []
      [("email", "a@x.com"), ("password", "p")] (by decide) (by decide) (by decide)
      (by decide),
   (login_after_signup ⟨⟨[]⟩, ⟨[("a@x.com", ⟨"000042", 600, true⟩)]⟩, none⟩
      [("email", " a@x.com"), ("password", "p"), ("name", "A")] 7 (by decide)).2
      (by decide) (by decide) []
      [("email", " a@x.com"), ("password", "p")] (by decide) (by decide) (by decide)⟩
/-! ## Claim C20: the read callback of the mail payload -/

/-- One read with a non-null buffer and a non-zero buffer size, from an offset inside the
payload. -/
theorem payloadSource_read (d : String) (off size nitems : Nat)
    (hd : d.data.length < 2 ^ 64) (hoff : off ≤ d.data.length)
    (hbs : 0 < (size * nitems) % 2 ^ 64) :
    payloadSource true size nitems (some ⟨some d, off⟩) =
      (min (d.data.length - off) ((size * nitems) % 2 ^ 64),
       (d.data.drop off).take (min (d.data.length - off) ((size * nitems) % 2 ^ 64)),
       some ⟨some d, off + min (d.data.length - off) ((size * nitems) % 2 ^ 64)⟩) := by
  have hrem : (d.data.length + 2 ^ 64 - off) % 2 ^ 64 = d.data.length - off := by
    have h1 : d.data.length + 2 ^ 64 - off = (d.data.length - off) + 2 ^ 64 := by omega
    rw [h1, Nat.add_mod_right]
    exact Nat.mod_eq_of_lt (by omega)
  have hbs0 : ¬ (size * nitems) % 2 ^ 64 = 0 := by omega
  unfold payloadSource
  simp only [Bool.not_true, Bool.false_eq_true, if_false, hbs0, hrem]
  by_cases hz : d.data.length - off = 0
  · simp only [hz, if_true, Nat.zero_min, List.take_zero, Nat.add_zero]
  · simp only [hz, if_false]
    by_cases hlt : d.data.length - off < (size * nitems) % 2 ^ 64
    · have hmin : min (d.data.length - off) ((size * nitems) % 2 ^ 64) =
          d.data.length - off := Nat.min_eq_left (Nat.le_of_lt hlt)
      simp only [hlt, if_true, hmin]
      have hmod : (off + (d.data.length - off)) % 2 ^ 64 = off + (d.data.length - off) :=
        Nat.mod_eq_of_lt (by omega)
      rw [hmod]
    · have hmin : min (d.data.length - off) ((size * nitems) % 2 ^ 64) =
          (size * nitems) % 2 ^ 64 := Nat.min_eq_right (Nat.le_of_not_lt hlt)
      simp only [hlt, if_false, hmin]
      have hmod : (off + (size * nitems) % 2 ^ 64) % 2 ^ 64 = off + (size * nitems) % 2 ^ 64 :=
        Nat.mod_eq_of_lt (by omega)
      rw [hmod]

/-- After any sequence of reads the offset is inside the payload and the bytes delivered
are the bytes between the starting offset and the offset reached. -/
theorem payloadReads_invariant (d : String) (hd : d.data.length < 2 ^ 64)
    (reads : List (Nat × Nat)) :
    ∀ off : Nat, off ≤ d.data.length → (∀ r ∈ reads, 0 < (r.1 * r.2) % 2 ^ 64) →
      (payloadReads ⟨some d, off⟩ reads).2.data = some d ∧
      off ≤ (payloadReads ⟨some d, off⟩ reads).2.offset ∧
      (payloadReads ⟨some d, off⟩ reads).2.offset ≤ d.data.length ∧
      (payloadReads ⟨some d, off⟩ reads).1 =
        (d.data.drop off).take ((payloadReads ⟨some d, off⟩ reads).2.offset - off) := by
  induction reads with
  | nil =>
    intro off hoff _
    exact ⟨rfl, le_refl off, hoff, by simp [payloadReads]⟩
  | cons r t ih =>
    obtain ⟨size, nitems⟩ := r
    intro off hoff hreads
    have hbs : 0 < (size * nitems) % 2 ^ 64 := hreads (size, nitems) (List.mem_cons_self _ _)
    have hread := payloadSource_read d off size nitems hd hoff hbs
    have hstep : payloadReads ⟨some d, off⟩ ((size, nitems) :: t) =
        ((d.data.drop off).take (min (d.data.length - off) ((size * nitems) % 2 ^ 64)) ++
          (payloadReads ⟨some d, off + min (d.data.length - off) ((size * nitems) % 2 ^ 64)⟩
            t).1,
         (payloadReads ⟨some d, off + min (d.data.length - off) ((size * nitems) % 2 ^ 64)⟩
            t).2) := by
      simp only [payloadReads, hread, Option.getD_some]
    have hn : off + min (d.data.length - off) ((size * nitems) % 2 ^ 64) ≤ d.data.length := by
      have := Nat.min_le_left (d.data.length - off) ((size * nitems) % 2 ^ 64)
      omega
    generalize min (d.data.length - off) ((size * nitems) % 2 ^ 64) = n at hstep hn
    obtain ⟨i1, i2, i3, i4⟩ := ih (off + n) hn
      (fun r hr => hreads r (List.mem_cons_of_mem _ hr))
    rw [hstep]
    refine ⟨i1, by simp only; omega, i3, ?_⟩
    simp only
    rw [i4]
    generalize (payloadReads ⟨some d, off + n⟩ t).2.offset = o at i2 i3
    have ho : o - off = n + (o - (off + n)) := by omega
    rw [ho, List.take_add, List.drop_drop]
theorem payloadSource_empty_buffer (buffer : Bool) (size nitems : Nat) (payload : CurlPayload)
    (hz : (size * nitems) % 2 ^ 64 = 0) :
    payloadSource buffer size nitems (some payload) = (0, [], some payload) := by
  unfold payloadSource
  simp only [hz, if_true]
  cases buffer
  · rfl
  · cases payload.data <;> rfl

/-- C20: for every payload string `d` (a `std::string`, so shorter than `2 ^ 64`) and every
sequence of reads with a non-null buffer and `size * nitems > 0`, the product being the
`size_t` the code computes, starting from offset 0: the offset reached is at most the
length of `d`, and the bytes delivered so far are the first `offset` bytes of `d`; the next
such read returns `min (length d - offset) (size * nitems)`, copies that many bytes of `d`
from the offset, which all lie inside `d`, and advances the offset by that amount; once the
offset is the length of `d` every read returns 0 and copies nothing; and a call with a null
buffer, null userdata, null data or `size * nitems = 0` returns 0, copies nothing and
leaves the offset as it was. -/
theorem payloadSource_spec (d : String) (hd : d.data.length < 2 ^ 64)
    (reads : List (Nat × Nat)) (hreads : ∀ r ∈ reads, 0 < (r.1 * r.2) % 2 ^ 64) :
    (payloadReads ⟨some d, 0⟩ reads).2.data = some d ∧
    (payloadReads ⟨some d, 0⟩ reads).2.offset ≤ d.data.length ∧
    (payloadReads ⟨some d, 0⟩ reads).1 =
      d.data.take (payloadReads ⟨some d, 0⟩ reads).2.offset ∧
    (∀ size nitems, 0 < (size * nitems) % 2 ^ 64 →
      payloadSource true size nitems (some (payloadReads ⟨some d, 0⟩ reads).2) =
        (min (d.data.length - (payloadReads ⟨some d, 0⟩ reads).2.offset)
            ((size * nitems) % 2 ^ 64),
         (d.data.drop (payloadReads ⟨some d, 0⟩ reads).2.offset).take
            (min (d.data.length - (payloadReads ⟨some d, 0⟩ reads).2.offset)
              ((size * nitems) % 2 ^ 64)),
         some ⟨some d, (payloadReads ⟨some d, 0⟩ reads).2.offset +
            min (d.data.length - (payloadReads ⟨some d, 0⟩ reads).2.offset)
              ((size * nitems) % 2 ^ 64)⟩) ∧
      (payloadSource true size nitems (some (payloadReads ⟨some d, 0⟩ reads).2)).2.1.length =
        (payloadSource true size nitems (some (payloadReads ⟨some d, 0⟩ reads).2)).1 ∧
      (payloadReads ⟨some d, 0⟩ reads).2.offset +
        (payloadSource true size nitems (some (payloadReads ⟨some d, 0⟩ reads).2)).1 ≤
          d.data.length) ∧
    ((payloadReads ⟨some d, 0⟩ reads).2.offset = d.data.length →
      ∀ size nitems,
        payloadSource true size nitems (some (payloadReads ⟨some d, 0⟩ reads).2) =
          (0, [], some (payloadReads ⟨some d, 0⟩ reads).2)) ∧
    (∀ size nitems userdata, payloadSource false size nitems userdata = (0, [], userdata)) ∧
    (∀ buffer size nitems, payloadSource buffer size nitems none = (0, [], none)) ∧
    (∀ buffer size nitems off,
      payloadSource buffer size nitems (some ⟨none, off⟩) = (0, [], some ⟨none, off⟩)) ∧
    (∀ buffer size nitems payload, (size * nitems) % 2 ^ 64 = 0 →
      payloadSource buffer size nitems (some payload) = (0, [], some payload)) ∧
    (∀ size nitems, size * nitems < 2 ^ 64 → (size * nitems) % 2 ^ 64 = size * nitems) := by
  obtain ⟨i1, _, i3, i4⟩ := payloadReads_invariant d hd reads 0 (Nat.zero_le _) hreads
  refine ⟨i1, i3, by simpa using i4, ?_, ?_, fun _ _ _ => rfl, ?_, ?_,
    payloadSource_empty_buffer, fun size nitems h => Nat.mod_eq_of_lt h⟩
  · intro size nitems hbs
    generalize (payloadReads ⟨some d, 0⟩ reads).2 = p at i1 i3
    obtain ⟨data, off⟩ := p
    simp only at i1 i3 ⊢
    subst i1
    rw [payloadSource_read d off size nitems hd i3 hbs]
    refine ⟨rfl, ?_, ?_⟩
    · simp only [List.length_take, List.length_drop]
      have := Nat.min_le_left (d.data.length - off) ((size * nitems) % 2 ^ 64)
      omega
    · simp only
      have := Nat.min_le_left (d.data.length - off) ((size * nitems) % 2 ^ 64)
      omega
  · intro hend size nitems
    generalize (payloadReads ⟨some d, 0⟩ reads).2 = p at i1 i3 hend
    obtain ⟨data, off⟩ := p
    simp only at i1 i3 hend ⊢
    subst i1
    by_cases hbs : (size * nitems) % 2 ^ 64 = 0
    · exact payloadSource_empty_buffer true size nitems _ hbs
    · rw [payloadSource_read d off size nitems hd i3 (by omega), hend]
      simp
  · intro buffer size nitems
    cases buffer <;> rfl
  · intro buffer size nitems off
    cases buffer <;> rfl

/-- C20 at a concrete input: `hello world` read in pieces of 4, 6, 100 and 5 bytes. -/
theorem payloadSource_spec_witness :
    payloadReads ⟨some "hello world", 0⟩ [(1, 4), (2, 3), (1, 100), (1, 5)] =
      ("hello world".data, ⟨some "hello world", 11⟩) ∧
    payloadSource true 1 4 (some ⟨some "hello world", 4⟩) =
      (4, ['o', ' ', 'w', 'o'], some ⟨some "hello world", 8⟩) ∧
    (payloadReads ⟨some "hello world", 0⟩ [(1, 4), (2, 3)]).1 =
      "hello world".data.take (payloadReads ⟨some "hello world", 0⟩ [(1, 4), (2, 3)]).2.offset :=
  ⟨by decide, by decide,
   (payloadSource_spec "hello world" (by decide) [(1, 4), (2, 3)] (by decide)).2.2.1⟩
end AuthCtrl
